import Mathlib

/-!
# Infoblox record resource: create / read / update / delete

A shallow embedding of `infoblox/resource_infoblox_record.go`.  The four
resource functions are pure functions from the resource data and the list of
remote calls issued so far to an outcome (returned error, resource data, list
of remote calls).  The remote store is an oracle that answers each call from
the whole call history, so no assumption is made on how it behaves.
-/

namespace Infoblox

/-! ## The Go library functions used by the resource -/

/-- Go `unicode.ToUpper`.  ASCII runes are mapped by the fixed rule
`'a'..'z' ↦ 'A'..'Z'`; the case table of the runes above ASCII is not part of
this repository and is the argument `upperTable`. -/
def unicode.ToUpper (upperTable : Char → Char) (r : Char) : Char :=
  if r.toNat ≤ 127 then
    if 97 ≤ r.toNat ∧ r.toNat ≤ 122 then Char.ofNat (r.toNat - 32) else r
  else upperTable r

/-- Go `strings.ToUpper`: every rune mapped by `unicode.ToUpper`. -/
def strings.ToUpper (upperTable : Char → Char) (s : String) : String :=
  String.mk (s.data.map (unicode.ToUpper upperTable))

/-- The pieces of a rune list between the occurrences of `sep`. -/
def strings.genSplit (sep : Char) : List Char → List (List Char)
  | [] => [[]]
  | c :: cs =>
    if c = sep then [] :: strings.genSplit sep cs
    else
      match strings.genSplit sep cs with
      | [] => [[c]]
      | w :: ws => (c :: w) :: ws

/-- Go `strings.Split(s, sep)` for a one-rune separator.  The result is never
empty: `Split("", ".")` is the one-element slice `[""]`. -/
def strings.Split (s : String) (sep : Char) : List String :=
  (strings.genSplit sep s.data).map String.mk

/-- Go `strings.Join(elems, sep)`. -/
def strings.Join : List String → String → String
  | [], _ => ""
  | [a], _ => a
  | a :: b :: rest, sep => a ++ sep ++ strings.Join (b :: rest) sep

/-- Go `fmt.Errorf(head + "%s", err)` with an `error` operand: a non-nil error
prints its message, a nil error prints `%!s(<nil>)`. -/
def fmt.Errorf (head : String) (err : Option String) : String :=
  head ++ (match err with
    | some e => e
    | none => "%!s(<nil>)")

/-! ## Resource data (terraform `schema.ResourceData`) -/

/-- The fields of the record resource as `d.Get` sees them, the stored id, and
the `value` of the prior state (what `d.HasChange("value")` compares with). -/
structure ResourceData where
  id : String
  comment : String
  domain : String
  fqdn : String
  ipv4addr : String
  ipv6addr : String
  name : String
  nextavailableip : Bool
  ttl : Int
  type : String
  value : String
  view : String
  stateValue : String
  deriving DecidableEq, Repr

/-- `d.GetOk` (terraform `helper/schema`) on a string field: the value, and
whether it has been set to a non-zero value, so `ok` is false for `""`. -/
def GetOkString (v : String) : String × Bool := (v, v != "")

/-- `d.GetOk` on a bool field: `ok` is false for `false`. -/
def GetOkBool (v : Bool) : Bool × Bool := (v, v != false)

/-- `d.GetOk` on an int field: `ok` is false for `0`. -/
def GetOkInt (v : Int) : Int × Bool := (v, v != 0)

/-- `d.HasChange("value")`: the prior state differs from the current value. -/
def ResourceData.HasChangeValue (d : ResourceData) : Bool := d.stateValue != d.value

/-- `d.SetId`. -/
def ResourceData.SetId (d : ResourceData) (v : String) : ResourceData := { d with id := v }

/-! ## The remote store (`infoblox.Client`) -/

/-- `infoblox.Options`. -/
structure Options where
  ReturnFields : List String
  deriving DecidableEq, Repr

/-- `infoblox.RecordAObject`, the fields the resource uses. -/
structure RecordAObject where
  Comment : String
  Ipv4Addr : String
  Name : String
  Ttl : Int
  View : String
  deriving DecidableEq, Repr

/-- `infoblox.RecordAAAAObject`. -/
structure RecordAAAAObject where
  Comment : String
  Ipv6Addr : String
  Name : String
  Ttl : Int
  View : String
  deriving DecidableEq, Repr

/-- `infoblox.RecordCnameObject`. -/
structure RecordCnameObject where
  Canonical : String
  Comment : String
  Name : String
  Ttl : Int
  View : String
  deriving DecidableEq, Repr

/-- `infoblox.HostIpv4Addr`. -/
structure HostIpv4Addr where
  Ipv4Addr : String
  deriving DecidableEq, Repr

/-- `infoblox.RecordHostObject`. -/
structure RecordHostObject where
  Comment : String
  Ipv4Addrs : List HostIpv4Addr
  Name : String
  Ttl : Int
  View : String
  deriving DecidableEq, Repr

/-- One remote call, with everything the resource passes to it. -/
inductive Call where
  | GetRecordA (ref : String) (opts : Option Options)
  | GetRecordAAAA (ref : String) (opts : Option Options)
  | GetRecordCname (ref : String) (opts : Option Options)
  | GetRecordHost (ref : String) (opts : Option Options)
  | CreateA (opts : Options) (body : RecordAObject)
  | CreateAAAA (opts : Options) (body : RecordAAAAObject)
  | CreateCname (opts : Options) (body : RecordCnameObject)
  | CreateHost (opts : Options) (body : RecordHostObject)
  | UpdateA (ref : String) (opts : Options) (body : RecordAObject)
  | UpdateAAAA (ref : String) (opts : Options) (body : RecordAAAAObject)
  | UpdateCname (ref : String) (opts : Options) (body : RecordCnameObject)
  | UpdateHost (ref : String) (opts : Options) (body : RecordHostObject)
  | DeleteA (ref : String)
  | DeleteAAAA (ref : String)
  | DeleteCname (ref : String)
  | DeleteHost (ref : String)
  deriving DecidableEq, Repr

/-- The remote store.  Every answer is a function of the calls issued so far,
the one being answered last; `Except.error e` is a Go error with message `e`,
and for `Delete` the answer is the returned error (`none` is nil). -/
structure Client where
  GetRecordA : List Call → Except String RecordAObject
  GetRecordAAAA : List Call → Except String RecordAAAAObject
  GetRecordCname : List Call → Except String RecordCnameObject
  GetRecordHost : List Call → Except String RecordHostObject
  Create : List Call → Except String String
  Update : List Call → Except String String
  Delete : List Call → Option String

/-- The `err` of a Go `(result, err)` pair. -/
def errOf {α : Type} : Except String α → Option String
  | .error e => some e
  | .ok _ => none

/-- What a resource function leaves behind: the returned error (`none` is
nil), the resource data, and the remote calls issued so far. -/
structure Outcome where
  err : Option String
  d : ResourceData
  calls : List Call

/-! ## `resourceInfobloxRecordRead` -/

/-- The source's `resourceInfobloxRecordRead`. -/
def resourceInfobloxRecordRead (upperTable : Char → Char) (client : Client)
    (d : ResourceData) (calls : List Call) : Outcome :=
  let nextavailableip :=
    if (GetOkBool d.nextavailableip).2 then (GetOkBool d.nextavailableip).1 else false
  match strings.ToUpper upperTable d.type with
  | "A" =>
    let opts : Options := { ReturnFields := ["name", "ipv4addr", "ttl", "view"] }
    let calls := calls ++ [Call.GetRecordA d.id (some opts)]
    match client.GetRecordA calls with
    | .error err => ⟨some (fmt.Errorf "Couldn't find Infoblox A record: " (some err)), d, calls⟩
    | .ok rec =>
      let d := { d with fqdn := rec.Name }
      let fqdn := strings.Split rec.Name '.'
      let d := { d with name := fqdn.headD "" }
      let d := { d with domain := strings.Join (fqdn.drop 1) "." }
      let d := { d with ipv4addr := rec.Ipv4Addr }
      let d := { d with ttl := rec.Ttl }
      let d := { d with type := "A" }
      let d := if !nextavailableip then { d with value := rec.Ipv4Addr } else d
      let d := { d with view := rec.View }
      ⟨none, d, calls⟩
  | "AAAA" =>
    let opts : Options := { ReturnFields := ["name", "ipv6addr", "ttl", "view"] }
    let calls := calls ++ [Call.GetRecordAAAA d.id (some opts)]
    match client.GetRecordAAAA calls with
    | .error err => ⟨some (fmt.Errorf "Couldn't find Infoblox AAAA record: " (some err)), d, calls⟩
    | .ok rec =>
      let d := { d with fqdn := rec.Name }
      let fqdn := strings.Split rec.Name '.'
      let d := { d with name := fqdn.headD "" }
      let d := { d with domain := strings.Join (fqdn.drop 1) "." }
      let d := { d with ipv6addr := rec.Ipv6Addr }
      let d := { d with ttl := rec.Ttl }
      let d := { d with type := "AAAA" }
      let d := if !nextavailableip then { d with value := rec.Ipv6Addr } else d
      let d := { d with view := rec.View }
      ⟨none, d, calls⟩
  | "CNAME" =>
    let opts : Options := { ReturnFields := ["name", "canonical", "ttl", "view"] }
    let calls := calls ++ [Call.GetRecordCname d.id (some opts)]
    match client.GetRecordCname calls with
    | .error err => ⟨some (fmt.Errorf "Couldn't find Infoblox CNAME record: " (some err)), d, calls⟩
    | .ok rec =>
      let d := { d with fqdn := rec.Name }
      let fqdn := strings.Split rec.Name '.'
      let d := { d with name := fqdn.headD "" }
      let d := { d with domain := strings.Join (fqdn.drop 1) "." }
      let d := { d with ttl := rec.Ttl }
      let d := { d with type := "CNAME" }
      let d := { d with value := rec.Canonical }
      let d := { d with view := rec.View }
      ⟨none, d, calls⟩
  | "HOST" =>
    let opts : Options := { ReturnFields := ["name", "ipv4addrs", "ttl", "view"] }
    let calls := calls ++ [Call.GetRecordHost d.id (some opts)]
    match client.GetRecordHost calls with
    | .error err => ⟨some (fmt.Errorf "Couldn't find Infoblox Host record: " (some err)), d, calls⟩
    | .ok rec =>
      let d := { d with fqdn := rec.Name }
      let fqdn := strings.Split rec.Name '.'
      let d := { d with name := fqdn.headD "" }
      let d := { d with domain := strings.Join (fqdn.drop 1) "." }
      let d :=
        match rec.Ipv4Addrs with
        | first :: _ =>
          let d := { d with ipv4addr := first.Ipv4Addr }
          if !nextavailableip then { d with value := first.Ipv4Addr } else d
        | [] => d
      let d := { d with ttl := rec.Ttl }
      let d := { d with type := "Host" }
      let d := { d with view := rec.View }
      ⟨none, d, calls⟩
  | _ => ⟨some "resourceInfobloxRecordRead: unknown type", d, calls⟩

/-! ## `resourceInfobloxRecordCreate` -/

/-- The source's `resourceInfobloxRecordCreate`.  The `switch` yields the
answer of the remote create call and the calls issued so far, or nothing where
the `default` arm returns; the statements after the `switch` follow. -/
def resourceInfobloxRecordCreate (upperTable : Char → Char) (client : Client)
    (d : ResourceData) (calls : List Call) : Outcome :=
  let comment := if (GetOkString d.comment).2 then (GetOkString d.comment).1 else ""
  let name := if (GetOkString d.name).2 then (GetOkString d.name).1 else ""
  let name :=
    if (GetOkString d.domain).2 then strings.Join [name, (GetOkString d.domain).1] "." else name
  let nextavailableip :=
    if (GetOkBool d.nextavailableip).2 then (GetOkBool d.nextavailableip).1 else false
  let ttl := if (GetOkInt d.ttl).2 then (GetOkInt d.ttl).1 else 0
  let value := if (GetOkString d.value).2 then (GetOkString d.value).1 else ""
  let view := if (GetOkString d.view).2 then (GetOkString d.view).1 else ""
  let switch : Option (Except String String × List Call) :=
    match strings.ToUpper upperTable d.type with
    | "A" =>
      let value := if nextavailableip then "func:nextavailableip:" ++ value else value
      let opts : Options := { ReturnFields := ["name", "ipv4addr", "ttl", "view"] }
      let body : RecordAObject :=
        { Comment := comment, Ipv4Addr := value, Name := name, Ttl := ttl, View := view }
      let calls := calls ++ [Call.CreateA opts body]
      some (client.Create calls, calls)
    | "AAAA" =>
      let value := if nextavailableip then "func:nextavailableip:" ++ value else value
      let opts : Options := { ReturnFields := ["name", "ipv6addr", "ttl", "view"] }
      let body : RecordAAAAObject :=
        { Comment := comment, Ipv6Addr := value, Name := name, Ttl := ttl, View := view }
      let calls := calls ++ [Call.CreateAAAA opts body]
      some (client.Create calls, calls)
    | "CNAME" =>
      let opts : Options := { ReturnFields := ["name", "canonical", "ttl", "view"] }
      let body : RecordCnameObject :=
        { Canonical := value, Comment := comment, Name := name, Ttl := ttl, View := view }
      let calls := calls ++ [Call.CreateCname opts body]
      some (client.Create calls, calls)
    | "HOST" =>
      let value := if nextavailableip then "func:nextavailableip:" ++ value else value
      let opts : Options := { ReturnFields := ["name", "ipv4addrs", "ttl", "view"] }
      let body : RecordHostObject :=
        { Comment := comment, Ipv4Addrs := [{ Ipv4Addr := value }], Name := name, Ttl := ttl,
          View := view }
      let calls := calls ++ [Call.CreateHost opts body]
      some (client.Create calls, calls)
    | _ => none
  match switch with
  | none => ⟨some "resourceInfobloxRecordCreate: unknown type", d, calls⟩
  | some (.error err, calls) =>
    ⟨some (fmt.Errorf "Failed to create Infblox Record: " (some err)), d, calls⟩
  | some (.ok recID, calls) =>
    let d := d.SetId recID
    resourceInfobloxRecordRead upperTable client d calls

/-! ## `resourceInfobloxRecordUpdate` -/

/-- The source's `resourceInfobloxRecordUpdate`.  `err` is the error of the
lookup and `updateErr` the error of the remote update call, two variables as in
the source; the message of a failed update is formatted from `err`. -/
def resourceInfobloxRecordUpdate (upperTable : Char → Char) (client : Client)
    (d : ResourceData) (calls : List Call) : Outcome :=
  let lookup : Option (Option String × List Call) :=
    match strings.ToUpper upperTable d.type with
    | "A" =>
      let calls := calls ++ [Call.GetRecordA d.id none]
      some (errOf (client.GetRecordA calls), calls)
    | "AAAA" =>
      let calls := calls ++ [Call.GetRecordAAAA d.id none]
      some (errOf (client.GetRecordAAAA calls), calls)
    | "CNAME" =>
      let calls := calls ++ [Call.GetRecordCname d.id none]
      some (errOf (client.GetRecordCname calls), calls)
    | "HOST" =>
      let calls := calls ++ [Call.GetRecordHost d.id none]
      some (errOf (client.GetRecordHost calls), calls)
    | _ => none
  match lookup with
  | none => ⟨some "resourceInfobloxRecordUpdate: unknown type", d, calls⟩
  | some (some e, calls) => ⟨some (fmt.Errorf "Couldn't find Infoblox record: " (some e)), d, calls⟩
  | some (none, calls) =>
    let err : Option String := none
    let comment := if (GetOkString d.comment).2 then (GetOkString d.comment).1 else ""
    let name := if (GetOkString d.name).2 then (GetOkString d.name).1 else ""
    let name :=
      if (GetOkString d.domain).2 then strings.Join [name, (GetOkString d.domain).1] "." else name
    let nextavailableip :=
      if (GetOkBool d.nextavailableip).2 then (GetOkBool d.nextavailableip).1 else false
    let ttl := if (GetOkInt d.ttl).2 then (GetOkInt d.ttl).1 else 0
    let value := if (GetOkString d.value).2 then (GetOkString d.value).1 else ""
    let switch : Option (Except String String × List Call) :=
      match strings.ToUpper upperTable d.type with
      | "A" =>
        let value :=
          if nextavailableip then
            if d.HasChangeValue then "func:nextavailableip:" ++ value
            else if (GetOkString d.ipv4addr).2 then (GetOkString d.ipv4addr).1
            else value
          else value
        let opts : Options := { ReturnFields := ["name", "ipv4addr", "ttl", "view"] }
        let body : RecordAObject :=
          { Comment := comment, Ipv4Addr := value, Name := name, Ttl := ttl, View := "" }
        let calls := calls ++ [Call.UpdateA d.id opts body]
        some (client.Update calls, calls)
      | "AAAA" =>
        let value :=
          if nextavailableip then
            if d.HasChangeValue then "func:nextavailableip:" ++ value
            else if (GetOkString d.ipv6addr).2 then (GetOkString d.ipv6addr).1
            else value
          else value
        let opts : Options := { ReturnFields := ["name", "ipv6addr", "ttl", "view"] }
        let body : RecordAAAAObject :=
          { Comment := comment, Ipv6Addr := value, Name := name, Ttl := ttl, View := "" }
        let calls := calls ++ [Call.UpdateAAAA d.id opts body]
        some (client.Update calls, calls)
      | "CNAME" =>
        let opts : Options := { ReturnFields := ["name", "canonical", "ttl", "view"] }
        let body : RecordCnameObject :=
          { Canonical := value, Comment := comment, Name := name, Ttl := ttl, View := "" }
        let calls := calls ++ [Call.UpdateCname d.id opts body]
        some (client.Update calls, calls)
      | "HOST" =>
        let value :=
          if nextavailableip then
            if d.HasChangeValue then "func:nextavailableip:" ++ value
            else if (GetOkString d.ipv4addr).2 then (GetOkString d.ipv4addr).1
            else value
          else value
        let opts : Options := { ReturnFields := ["name", "ipv4addrs", "ttl", "view"] }
        let body : RecordHostObject :=
          { Comment := comment, Ipv4Addrs := [{ Ipv4Addr := value }], Name := name, Ttl := ttl,
            View := "" }
        let calls := calls ++ [Call.UpdateHost d.id opts body]
        some (client.Update calls, calls)
      | _ => none
    match switch with
    | none => ⟨some "resourceInfobloxRecordUpdate: unknown type", d, calls⟩
    | some (.error _updateErr, calls) =>
      ⟨some (fmt.Errorf "Failed to update Infblox Record: " err), d, calls⟩
    | some (.ok recID, calls) =>
      let d := d.SetId recID
      resourceInfobloxRecordRead upperTable client d calls

/-! ## `resourceInfobloxRecordDelete` -/

/-- The source's `resourceInfobloxRecordDelete`.  In each arm `err` is the
error of the lookup and `deleteErr` the error of the remote delete call; the
message of a failed delete is formatted from `err`. -/
def resourceInfobloxRecordDelete (upperTable : Char → Char) (client : Client)
    (d : ResourceData) (calls : List Call) : Outcome :=
  match strings.ToUpper upperTable d.type with
  | "A" =>
    let calls := calls ++ [Call.GetRecordA d.id none]
    match errOf (client.GetRecordA calls) with
    | some e => ⟨some (fmt.Errorf "Couldn't find Infoblox A record: " (some e)), d, calls⟩
    | none =>
      let err : Option String := none
      let calls := calls ++ [Call.DeleteA d.id]
      match client.Delete calls with
      | some _deleteErr => ⟨some (fmt.Errorf "Error deleting Infoblox A Record: " err), d, calls⟩
      | none => ⟨none, d, calls⟩
  | "AAAA" =>
    let calls := calls ++ [Call.GetRecordAAAA d.id none]
    match errOf (client.GetRecordAAAA calls) with
    | some e => ⟨some (fmt.Errorf "Couldn't find Infoblox AAAA record: " (some e)), d, calls⟩
    | none =>
      let err : Option String := none
      let calls := calls ++ [Call.DeleteAAAA d.id]
      match client.Delete calls with
      | some _deleteErr => ⟨some (fmt.Errorf "Error deleting Infoblox AAAA Record: " err), d, calls⟩
      | none => ⟨none, d, calls⟩
  | "CNAME" =>
    let calls := calls ++ [Call.GetRecordCname d.id none]
    match errOf (client.GetRecordCname calls) with
    | some e => ⟨some (fmt.Errorf "Couldn't find Infoblox CNAME record: " (some e)), d, calls⟩
    | none =>
      let err : Option String := none
      let calls := calls ++ [Call.DeleteCname d.id]
      match client.Delete calls with
      | some _deleteErr => ⟨some (fmt.Errorf "Error deleting Infoblox CNAME Record: " err), d, calls⟩
      | none => ⟨none, d, calls⟩
  | "HOST" =>
    let calls := calls ++ [Call.GetRecordHost d.id none]
    match errOf (client.GetRecordHost calls) with
    | some e => ⟨some (fmt.Errorf "Couldn't find Infoblox Host record: " (some e)), d, calls⟩
    | none =>
      let err : Option String := none
      let calls := calls ++ [Call.DeleteHost d.id]
      match client.Delete calls with
      | some _deleteErr => ⟨some (fmt.Errorf "Error deleting Infoblox Host Record: " err), d, calls⟩
      | none => ⟨none, d, calls⟩
  | _ => ⟨some "resourceInfobloxRecordDelete: unknown type", d, calls⟩

/-! ## Observations on calls and answers, and sample inputs -/

/-- The `Name` a create or update call carries in its body. -/
def Call.Name : Call → Option String
  | .CreateA _ body => some body.Name
  | .CreateAAAA _ body => some body.Name
  | .CreateCname _ body => some body.Name
  | .CreateHost _ body => some body.Name
  | .UpdateA _ _ body => some body.Name
  | .UpdateAAAA _ _ body => some body.Name
  | .UpdateCname _ _ body => some body.Name
  | .UpdateHost _ _ body => some body.Name
  | _ => none

/-- Whether the call is one of the four remote create calls. -/
def Call.isCreate : Call → Bool
  | .CreateA _ _ => true
  | .CreateAAAA _ _ => true
  | .CreateCname _ _ => true
  | .CreateHost _ _ => true
  | _ => false

/-- The `Name` of the record the store answers the last call of `log` with,
when that call is a lookup and the answer is not an error. -/
def Client.lookupName (client : Client) (log : List Call) : Option String :=
  match log.getLast? with
  | some (.GetRecordA _ _) =>
    match client.GetRecordA log with
    | .ok rec => some rec.Name
    | .error _ => none
  | some (.GetRecordAAAA _ _) =>
    match client.GetRecordAAAA log with
    | .ok rec => some rec.Name
    | .error _ => none
  | some (.GetRecordCname _ _) =>
    match client.GetRecordCname log with
    | .ok rec => some rec.Name
    | .error _ => none
  | some (.GetRecordHost _ _) =>
    match client.GetRecordHost log with
    | .ok rec => some rec.Name
    | .error _ => none
  | _ => none

/-- A store that answers every lookup with a record named `www.example.com`
and accepts every create, update and delete. -/
def sampleStore : Client where
  GetRecordA := fun _ => .ok ⟨"", "10.0.0.5", "www.example.com", 0, "default"⟩
  GetRecordAAAA := fun _ => .ok ⟨"", "2001:db8::5", "www.example.com", 0, "default"⟩
  GetRecordCname := fun _ => .ok ⟨"target.example.com", "", "www.example.com", 0, "default"⟩
  GetRecordHost := fun _ => .ok ⟨"", [⟨"10.0.0.5"⟩], "www.example.com", 0, "default"⟩
  Create := fun _ => .ok "record:ref1"
  Update := fun _ => .ok "record:ref2"
  Delete := fun _ => none

/-- A store that answers every lookup, and fails every create, update and
delete with the message `boom`. -/
def refusingStore : Client where
  GetRecordA := fun _ => .ok ⟨"", "10.0.0.5", "www.example.com", 0, "default"⟩
  GetRecordAAAA := fun _ => .ok ⟨"", "2001:db8::5", "www.example.com", 0, "default"⟩
  GetRecordCname := fun _ => .ok ⟨"target.example.com", "", "www.example.com", 0, "default"⟩
  GetRecordHost := fun _ => .ok ⟨"", [⟨"10.0.0.5"⟩], "www.example.com", 0, "default"⟩
  Create := fun _ => .error "boom"
  Update := fun _ => .error "boom"
  Delete := fun _ => some "boom"

/-- A store on which no record is found: every lookup fails with `gone`. -/
def emptyStore : Client where
  GetRecordA := fun _ => .error "gone"
  GetRecordAAAA := fun _ => .error "gone"
  GetRecordCname := fun _ => .error "gone"
  GetRecordHost := fun _ => .error "gone"
  Create := fun _ => .ok "record:ref1"
  Update := fun _ => .ok "record:ref2"
  Delete := fun _ => none

/-- A store whose host record `www.example.com` has no address entry; it
accepts every create, update and delete. -/
def addresslessStore : Client where
  GetRecordA := fun _ => .error "gone"
  GetRecordAAAA := fun _ => .error "gone"
  GetRecordCname := fun _ => .error "gone"
  GetRecordHost := fun _ => .ok ⟨"", [], "www.example.com", 0, "default"⟩
  Create := fun _ => .ok "record:ref1"
  Update := fun _ => .ok "record:ref2"
  Delete := fun _ => none

/-- A stored record `name.domain` of the given type with id `record:ref0`,
comment `web`, ttl 300 and view `internal`; `stateValue` is the value of the
prior state. -/
def sampleData (type name domain value : String) (nextavailableip : Bool)
    (ipv4addr stateValue : String) : ResourceData :=
  { id := "record:ref0", comment := "web", domain := domain, fqdn := "", ipv4addr := ipv4addr,
    ipv6addr := "", name := name, nextavailableip := nextavailableip, ttl := 300, type := type,
    value := value, view := "internal", stateValue := stateValue }

/-! ## Lemmas on the library functions -/

/-- Splitting never gives the empty list. -/
theorem genSplit_ne_nil (sep : Char) (l : List Char) : strings.genSplit sep l ≠ [] := by
  cases l with
  | nil => simp [strings.genSplit]
  | cons c cs =>
    unfold strings.genSplit
    split
    · simp
    · split <;> simp

/-- A rune list without the separator is its own single piece. -/
theorem genSplit_of_not_mem (sep : Char) (l : List Char) (h : sep ∉ l) :
    strings.genSplit sep l = [l] := by
  induction l with
  | nil => rfl
  | cons c cs ih =>
    have hc : c ≠ sep := fun e => h (by simp [e])
    have hcs : sep ∉ cs := fun e => h (by simp [e])
    simp [strings.genSplit, hc, ih hcs]

/-- The first piece ends at the first separator. -/
theorem genSplit_append_sep (sep : Char) (l rest : List Char) (h : sep ∉ l) :
    strings.genSplit sep (l ++ sep :: rest) = l :: strings.genSplit sep rest := by
  induction l with
  | nil => simp [strings.genSplit]
  | cons c cs ih =>
    have hc : c ≠ sep := fun e => h (by simp [e])
    have hcs : sep ∉ cs := fun e => h (by simp [e])
    simp [strings.genSplit, hc, ih hcs]

/-- Appending to a string with a first rune. -/
theorem mk_cons_append (c : Char) (w : List Char) (s : String) :
    String.mk (c :: w) ++ s = String.mk (c :: (String.mk w ++ s).data) := by
  apply String.ext
  simp [String.data_append]

/-- Joining the pieces with `.` gives the string back. -/
theorem join_genSplit (l : List Char) :
    strings.Join ((strings.genSplit '.' l).map String.mk) "." = String.mk l := by
  induction l with
  | nil => rfl
  | cons c cs ih =>
    unfold strings.genSplit
    by_cases hc : c = '.'
    · subst hc
      simp only [if_true]
      cases hg : strings.genSplit '.' cs with
      | nil => exact absurd hg (genSplit_ne_nil _ _)
      | cons w ws =>
        rw [hg] at ih
        simp only [List.map_cons] at ih ⊢
        simp only [strings.Join]
        rw [ih]
        apply String.ext
        simp [String.data_append]
    · simp only [if_neg hc]
      cases hg : strings.genSplit '.' cs with
      | nil => exact absurd hg (genSplit_ne_nil _ _)
      | cons w ws =>
        rw [hg] at ih
        cases ws with
        | nil =>
          simp only [List.map_cons, List.map_nil, strings.Join] at ih ⊢
          have : w = cs := by injection ih
          rw [this]
        | cons b r =>
          simp only [List.map_cons, strings.Join] at ih ⊢
          rw [String.append_assoc, mk_cons_append, ← String.append_assoc, ih]

/-- Split and Join undo `name + "." + domain` for a name without `.`. -/
theorem split_join_name_domain (name domain : String) (h : '.' ∉ name.data) :
    (strings.Split (name ++ "." ++ domain) '.').headD "" = name ∧
    strings.Join ((strings.Split (name ++ "." ++ domain) '.').drop 1) "." = domain := by
  have hd : (name ++ "." ++ domain).data = name.data ++ '.' :: domain.data := by
    simp [String.data_append]
  simp only [strings.Split, hd, genSplit_append_sep _ _ _ h, List.map_cons, List.headD_cons,
    List.drop_succ_cons, List.drop_zero, join_genSplit, and_self]

/-- Split and Join on a name without `.`: the name, and no domain. -/
theorem split_join_bare_name (name : String) (h : '.' ∉ name.data) :
    (strings.Split name '.').headD "" = name ∧
    strings.Join ((strings.Split name '.').drop 1) "." = "" := by
  simp only [strings.Split, genSplit_of_not_mem _ _ h, List.map_cons, List.map_nil,
    List.headD_cons, List.drop_succ_cons, List.drop_nil, strings.Join, and_self]

/-- A string field read through `GetOk` with the zero value as default. -/
@[simp] theorem getOkString_or_zero (v : String) :
    (if (GetOkString v).2 = true then (GetOkString v).1 else "") = v := by
  by_cases h : v = "" <;> simp [GetOkString, h]

/-- A bool field read through `GetOk` with the zero value as default. -/
@[simp] theorem getOkBool_or_zero (v : Bool) :
    (if (GetOkBool v).2 = true then (GetOkBool v).1 else false) = v := by
  cases v <;> rfl

/-- An int field read through `GetOk` with the zero value as default. -/
@[simp] theorem getOkInt_or_zero (v : Int) :
    (if (GetOkInt v).2 = true then (GetOkInt v).1 else 0) = v := by
  by_cases h : v = 0 <;> simp [GetOkInt, h]

/-- The guarded join of name and domain. -/
theorem getOkString_join (n v : String) :
    (if (GetOkString v).2 = true then strings.Join [n, (GetOkString v).1] "." else n) =
      if v = "" then n else n ++ "." ++ v := by
  by_cases h : v = "" <;> simp [GetOkString, strings.Join, h]

/-- A string or, when it is empty, the empty string. -/
theorem empty_or_self (v : String) : (if v = "" then "" else v) = v := by
  by_cases h : v = "" <;> simp [h]

/-- A string field when it is set, another string when it is not. -/
theorem getOkString_or_else (a v : String) :
    (if (GetOkString a).2 = true then (GetOkString a).1 else v) = if a = "" then v else a := by
  by_cases h : a = "" <;> simp [GetOkString, h]

/-! ## Normal forms of the four functions, arm by arm -/

/-- Normal form of `resourceInfobloxRecordRead` in the `A` arm. -/
theorem read_A (upperTable : Char → Char) (client : Client) (d : ResourceData)
    (calls : List Call) (h : strings.ToUpper upperTable d.type = "A")
    (look : Call) (hl : look = Call.GetRecordA d.id (some ⟨["name", "ipv4addr", "ttl", "view"]⟩)) :
    resourceInfobloxRecordRead upperTable client d calls =
      match client.GetRecordA (calls ++ [look]) with
      | .error err =>
        ⟨some ("Couldn't find Infoblox A record: " ++ err), d, calls ++ [look]⟩
      | .ok rec =>
        ⟨none,
          { d with
            fqdn := rec.Name
            name := (strings.Split rec.Name '.').headD ""
            domain := strings.Join ((strings.Split rec.Name '.').drop 1) "."
            ipv4addr := rec.Ipv4Addr
            ttl := rec.Ttl
            type := "A"
            value := if d.nextavailableip then d.value else rec.Ipv4Addr
            view := rec.View },
          calls ++ [look]⟩ := by
  subst hl
  simp only [resourceInfobloxRecordRead, h, getOkBool_or_zero, fmt.Errorf]
  cases client.GetRecordA _ with
  | error e => rfl
  | ok rec => cases hb : d.nextavailableip <;> simp

/-- Normal form of `resourceInfobloxRecordRead` in the `AAAA` arm. -/
theorem read_AAAA (upperTable : Char → Char) (client : Client) (d : ResourceData)
    (calls : List Call) (h : strings.ToUpper upperTable d.type = "AAAA")
    (look : Call) (hl : look = Call.GetRecordAAAA d.id (some ⟨["name", "ipv6addr", "ttl", "view"]⟩)) :
    resourceInfobloxRecordRead upperTable client d calls =
      match client.GetRecordAAAA (calls ++ [look]) with
      | .error err =>
        ⟨some ("Couldn't find Infoblox AAAA record: " ++ err), d, calls ++ [look]⟩
      | .ok rec =>
        ⟨none,
          { d with
            fqdn := rec.Name
            name := (strings.Split rec.Name '.').headD ""
            domain := strings.Join ((strings.Split rec.Name '.').drop 1) "."
            ipv6addr := rec.Ipv6Addr
            ttl := rec.Ttl
            type := "AAAA"
            value := if d.nextavailableip then d.value else rec.Ipv6Addr
            view := rec.View },
          calls ++ [look]⟩ := by
  subst hl
  simp only [resourceInfobloxRecordRead, h, getOkBool_or_zero, fmt.Errorf]
  cases client.GetRecordAAAA _ with
  | error e => rfl
  | ok rec => cases hb : d.nextavailableip <;> simp

/-- Normal form of `resourceInfobloxRecordRead` in the `CNAME` arm. -/
theorem read_Cname (upperTable : Char → Char) (client : Client) (d : ResourceData)
    (calls : List Call) (h : strings.ToUpper upperTable d.type = "CNAME")
    (look : Call) (hl : look = Call.GetRecordCname d.id (some ⟨["name", "canonical", "ttl", "view"]⟩)) :
    resourceInfobloxRecordRead upperTable client d calls =
      match client.GetRecordCname (calls ++ [look]) with
      | .error err =>
        ⟨some ("Couldn't find Infoblox CNAME record: " ++ err), d, calls ++ [look]⟩
      | .ok rec =>
        ⟨none,
          { d with
            fqdn := rec.Name
            name := (strings.Split rec.Name '.').headD ""
            domain := strings.Join ((strings.Split rec.Name '.').drop 1) "."
            ttl := rec.Ttl
            type := "CNAME"
            value := rec.Canonical
            view := rec.View },
          calls ++ [look]⟩ := by
  subst hl
  simp only [resourceInfobloxRecordRead, h, getOkBool_or_zero, fmt.Errorf]

/-- Normal form of `resourceInfobloxRecordRead` in the `HOST` arm. -/
theorem read_Host (upperTable : Char → Char) (client : Client) (d : ResourceData)
    (calls : List Call) (h : strings.ToUpper upperTable d.type = "HOST")
    (look : Call) (hl : look = Call.GetRecordHost d.id (some ⟨["name", "ipv4addrs", "ttl", "view"]⟩)) :
    resourceInfobloxRecordRead upperTable client d calls =
      match client.GetRecordHost (calls ++ [look]) with
      | .error err =>
        ⟨some ("Couldn't find Infoblox Host record: " ++ err), d, calls ++ [look]⟩
      | .ok rec =>
        ⟨none,
          { d with
            fqdn := rec.Name
            name := (strings.Split rec.Name '.').headD ""
            domain := strings.Join ((strings.Split rec.Name '.').drop 1) "."
            ipv4addr :=
              match rec.Ipv4Addrs with
              | first :: _ => first.Ipv4Addr
              | [] => d.ipv4addr
            ttl := rec.Ttl
            type := "Host"
            value :=
              match rec.Ipv4Addrs with
              | first :: _ => if d.nextavailableip then d.value else first.Ipv4Addr
              | [] => d.value
            view := rec.View },
          calls ++ [look]⟩ := by
  subst hl
  simp only [resourceInfobloxRecordRead, h, getOkBool_or_zero, fmt.Errorf]
  cases client.GetRecordHost _ with
  | error e => rfl
  | ok rec =>
    obtain ⟨cm, addrs, nm, tl, vw⟩ := rec
    cases addrs <;> cases hb : d.nextavailableip <;> simp

/-- Normal form of `resourceInfobloxRecordCreate` in the `A` arm. -/
theorem create_A (upperTable : Char → Char) (client : Client) (d : ResourceData)
    (calls : List Call) (h : strings.ToUpper upperTable d.type = "A")
    (c : Call)
    (hc : c = Call.CreateA ⟨["name", "ipv4addr", "ttl", "view"]⟩
      ⟨d.comment, (if d.nextavailableip then "func:nextavailableip:" ++ d.value else d.value), (if d.domain = "" then d.name else d.name ++ "." ++ d.domain), d.ttl, d.view⟩) :
    resourceInfobloxRecordCreate upperTable client d calls =
      match client.Create (calls ++ [c]) with
      | .error err => ⟨some ("Failed to create Infblox Record: " ++ err), d, calls ++ [c]⟩
      | .ok recID => resourceInfobloxRecordRead upperTable client (d.SetId recID) (calls ++ [c]) := by
  subst hc
  simp only [resourceInfobloxRecordCreate, h, getOkString_or_zero, getOkBool_or_zero,
    getOkInt_or_zero, getOkString_join, fmt.Errorf]
  cases client.Create _ <;> rfl

/-- Normal form of `resourceInfobloxRecordCreate` in the `AAAA` arm. -/
theorem create_AAAA (upperTable : Char → Char) (client : Client) (d : ResourceData)
    (calls : List Call) (h : strings.ToUpper upperTable d.type = "AAAA")
    (c : Call)
    (hc : c = Call.CreateAAAA ⟨["name", "ipv6addr", "ttl", "view"]⟩
      ⟨d.comment, (if d.nextavailableip then "func:nextavailableip:" ++ d.value else d.value), (if d.domain = "" then d.name else d.name ++ "." ++ d.domain), d.ttl, d.view⟩) :
    resourceInfobloxRecordCreate upperTable client d calls =
      match client.Create (calls ++ [c]) with
      | .error err => ⟨some ("Failed to create Infblox Record: " ++ err), d, calls ++ [c]⟩
      | .ok recID => resourceInfobloxRecordRead upperTable client (d.SetId recID) (calls ++ [c]) := by
  subst hc
  simp only [resourceInfobloxRecordCreate, h, getOkString_or_zero, getOkBool_or_zero,
    getOkInt_or_zero, getOkString_join, fmt.Errorf]
  cases client.Create _ <;> rfl

/-- Normal form of `resourceInfobloxRecordCreate` in the `CNAME` arm. -/
theorem create_Cname (upperTable : Char → Char) (client : Client) (d : ResourceData)
    (calls : List Call) (h : strings.ToUpper upperTable d.type = "CNAME")
    (c : Call)
    (hc : c = Call.CreateCname ⟨["name", "canonical", "ttl", "view"]⟩
      ⟨d.value, d.comment, (if d.domain = "" then d.name else d.name ++ "." ++ d.domain), d.ttl, d.view⟩) :
    resourceInfobloxRecordCreate upperTable client d calls =
      match client.Create (calls ++ [c]) with
      | .error err => ⟨some ("Failed to create Infblox Record: " ++ err), d, calls ++ [c]⟩
      | .ok recID => resourceInfobloxRecordRead upperTable client (d.SetId recID) (calls ++ [c]) := by
  subst hc
  simp only [resourceInfobloxRecordCreate, h, getOkString_or_zero, getOkBool_or_zero,
    getOkInt_or_zero, getOkString_join, fmt.Errorf]
  cases client.Create _ <;> rfl

/-- Normal form of `resourceInfobloxRecordCreate` in the `HOST` arm. -/
theorem create_Host (upperTable : Char → Char) (client : Client) (d : ResourceData)
    (calls : List Call) (h : strings.ToUpper upperTable d.type = "HOST")
    (c : Call)
    (hc : c = Call.CreateHost ⟨["name", "ipv4addrs", "ttl", "view"]⟩
      ⟨d.comment, [⟨(if d.nextavailableip then "func:nextavailableip:" ++ d.value else d.value)⟩], (if d.domain = "" then d.name else d.name ++ "." ++ d.domain), d.ttl, d.view⟩) :
    resourceInfobloxRecordCreate upperTable client d calls =
      match client.Create (calls ++ [c]) with
      | .error err => ⟨some ("Failed to create Infblox Record: " ++ err), d, calls ++ [c]⟩
      | .ok recID => resourceInfobloxRecordRead upperTable client (d.SetId recID) (calls ++ [c]) := by
  subst hc
  simp only [resourceInfobloxRecordCreate, h, getOkString_or_zero, getOkBool_or_zero,
    getOkInt_or_zero, getOkString_join, fmt.Errorf]
  cases client.Create _ <;> rfl

/-- Normal form of `resourceInfobloxRecordUpdate` in the `A` arm. -/
theorem update_A (upperTable : Char → Char) (client : Client) (d : ResourceData)
    (calls : List Call) (h : strings.ToUpper upperTable d.type = "A")
    (look c : Call) (hl : look = Call.GetRecordA d.id none)
    (hc : c = Call.UpdateA d.id ⟨["name", "ipv4addr", "ttl", "view"]⟩
      ⟨d.comment, (if d.nextavailableip then
          if d.HasChangeValue then "func:nextavailableip:" ++ d.value
          else if d.ipv4addr = "" then d.value else d.ipv4addr
        else d.value), (if d.domain = "" then d.name else d.name ++ "." ++ d.domain), d.ttl, ""⟩) :
    resourceInfobloxRecordUpdate upperTable client d calls =
      match client.GetRecordA (calls ++ [look]) with
      | .error e => ⟨some ("Couldn't find Infoblox record: " ++ e), d, calls ++ [look]⟩
      | .ok _ =>
        match client.Update (calls ++ [look] ++ [c]) with
        | .error _ =>
          ⟨some "Failed to update Infblox Record: %!s(<nil>)", d, calls ++ [look] ++ [c]⟩
        | .ok recID =>
          resourceInfobloxRecordRead upperTable client (d.SetId recID)
            (calls ++ [look] ++ [c]) := by
  subst hl hc
  simp only [resourceInfobloxRecordUpdate, h]
  cases client.GetRecordA _ with
  | error e => rfl
  | ok r =>
    simp only [errOf, getOkString_or_zero, getOkBool_or_zero, getOkInt_or_zero,
      getOkString_join, getOkString_or_else, empty_or_self, fmt.Errorf]
    cases client.Update _ <;> rfl

/-- Normal form of `resourceInfobloxRecordUpdate` in the `AAAA` arm. -/
theorem update_AAAA (upperTable : Char → Char) (client : Client) (d : ResourceData)
    (calls : List Call) (h : strings.ToUpper upperTable d.type = "AAAA")
    (look c : Call) (hl : look = Call.GetRecordAAAA d.id none)
    (hc : c = Call.UpdateAAAA d.id ⟨["name", "ipv6addr", "ttl", "view"]⟩
      ⟨d.comment, (if d.nextavailableip then
          if d.HasChangeValue then "func:nextavailableip:" ++ d.value
          else if d.ipv6addr = "" then d.value else d.ipv6addr
        else d.value), (if d.domain = "" then d.name else d.name ++ "." ++ d.domain), d.ttl, ""⟩) :
    resourceInfobloxRecordUpdate upperTable client d calls =
      match client.GetRecordAAAA (calls ++ [look]) with
      | .error e => ⟨some ("Couldn't find Infoblox record: " ++ e), d, calls ++ [look]⟩
      | .ok _ =>
        match client.Update (calls ++ [look] ++ [c]) with
        | .error _ =>
          ⟨some "Failed to update Infblox Record: %!s(<nil>)", d, calls ++ [look] ++ [c]⟩
        | .ok recID =>
          resourceInfobloxRecordRead upperTable client (d.SetId recID)
            (calls ++ [look] ++ [c]) := by
  subst hl hc
  simp only [resourceInfobloxRecordUpdate, h]
  cases client.GetRecordAAAA _ with
  | error e => rfl
  | ok r =>
    simp only [errOf, getOkString_or_zero, getOkBool_or_zero, getOkInt_or_zero,
      getOkString_join, getOkString_or_else, empty_or_self, fmt.Errorf]
    cases client.Update _ <;> rfl

/-- Normal form of `resourceInfobloxRecordUpdate` in the `CNAME` arm. -/
theorem update_Cname (upperTable : Char → Char) (client : Client) (d : ResourceData)
    (calls : List Call) (h : strings.ToUpper upperTable d.type = "CNAME")
    (look c : Call) (hl : look = Call.GetRecordCname d.id none)
    (hc : c = Call.UpdateCname d.id ⟨["name", "canonical", "ttl", "view"]⟩
      ⟨d.value, d.comment, (if d.domain = "" then d.name else d.name ++ "." ++ d.domain), d.ttl, ""⟩) :
    resourceInfobloxRecordUpdate upperTable client d calls =
      match client.GetRecordCname (calls ++ [look]) with
      | .error e => ⟨some ("Couldn't find Infoblox record: " ++ e), d, calls ++ [look]⟩
      | .ok _ =>
        match client.Update (calls ++ [look] ++ [c]) with
        | .error _ =>
          ⟨some "Failed to update Infblox Record: %!s(<nil>)", d, calls ++ [look] ++ [c]⟩
        | .ok recID =>
          resourceInfobloxRecordRead upperTable client (d.SetId recID)
            (calls ++ [look] ++ [c]) := by
  subst hl hc
  simp only [resourceInfobloxRecordUpdate, h]
  cases client.GetRecordCname _ with
  | error e => rfl
  | ok r =>
    simp only [errOf, getOkString_or_zero, getOkBool_or_zero, getOkInt_or_zero,
      getOkString_join, getOkString_or_else, empty_or_self, fmt.Errorf]
    cases client.Update _ <;> rfl

/-- Normal form of `resourceInfobloxRecordUpdate` in the `HOST` arm. -/
theorem update_Host (upperTable : Char → Char) (client : Client) (d : ResourceData)
    (calls : List Call) (h : strings.ToUpper upperTable d.type = "HOST")
    (look c : Call) (hl : look = Call.GetRecordHost d.id none)
    (hc : c = Call.UpdateHost d.id ⟨["name", "ipv4addrs", "ttl", "view"]⟩
      ⟨d.comment, [⟨(if d.nextavailableip then
          if d.HasChangeValue then "func:nextavailableip:" ++ d.value
          else if d.ipv4addr = "" then d.value else d.ipv4addr
        else d.value)⟩], (if d.domain = "" then d.name else d.name ++ "." ++ d.domain), d.ttl, ""⟩) :
    resourceInfobloxRecordUpdate upperTable client d calls =
      match client.GetRecordHost (calls ++ [look]) with
      | .error e => ⟨some ("Couldn't find Infoblox record: " ++ e), d, calls ++ [look]⟩
      | .ok _ =>
        match client.Update (calls ++ [look] ++ [c]) with
        | .error _ =>
          ⟨some "Failed to update Infblox Record: %!s(<nil>)", d, calls ++ [look] ++ [c]⟩
        | .ok recID =>
          resourceInfobloxRecordRead upperTable client (d.SetId recID)
            (calls ++ [look] ++ [c]) := by
  subst hl hc
  simp only [resourceInfobloxRecordUpdate, h]
  cases client.GetRecordHost _ with
  | error e => rfl
  | ok r =>
    simp only [errOf, getOkString_or_zero, getOkBool_or_zero, getOkInt_or_zero,
      getOkString_join, getOkString_or_else, empty_or_self, fmt.Errorf]
    cases client.Update _ <;> rfl

/-- Normal form of `resourceInfobloxRecordDelete` in the `A` arm. -/
theorem delete_A (upperTable : Char → Char) (client : Client) (d : ResourceData)
    (calls : List Call) (h : strings.ToUpper upperTable d.type = "A") :
    resourceInfobloxRecordDelete upperTable client d calls =
      match client.GetRecordA (calls ++ [Call.GetRecordA d.id none]) with
      | .error e =>
        ⟨some ("Couldn't find Infoblox A record: " ++ e), d,
          calls ++ [Call.GetRecordA d.id none]⟩
      | .ok _ =>
        match client.Delete (calls ++ [Call.GetRecordA d.id none] ++ [Call.DeleteA d.id]) with
        | some _ =>
          ⟨some "Error deleting Infoblox A Record: %!s(<nil>)", d,
            calls ++ [Call.GetRecordA d.id none] ++ [Call.DeleteA d.id]⟩
        | none =>
          ⟨none, d, calls ++ [Call.GetRecordA d.id none] ++ [Call.DeleteA d.id]⟩ := by
  simp only [resourceInfobloxRecordDelete, h]
  cases client.GetRecordA _ with
  | error e => rfl
  | ok r =>
    simp only [errOf, fmt.Errorf]
    cases client.Delete _ <;> rfl

/-- Normal form of `resourceInfobloxRecordDelete` in the `AAAA` arm. -/
theorem delete_AAAA (upperTable : Char → Char) (client : Client) (d : ResourceData)
    (calls : List Call) (h : strings.ToUpper upperTable d.type = "AAAA") :
    resourceInfobloxRecordDelete upperTable client d calls =
      match client.GetRecordAAAA (calls ++ [Call.GetRecordAAAA d.id none]) with
      | .error e =>
        ⟨some ("Couldn't find Infoblox AAAA record: " ++ e), d,
          calls ++ [Call.GetRecordAAAA d.id none]⟩
      | .ok _ =>
        match client.Delete (calls ++ [Call.GetRecordAAAA d.id none] ++ [Call.DeleteAAAA d.id]) with
        | some _ =>
          ⟨some "Error deleting Infoblox AAAA Record: %!s(<nil>)", d,
            calls ++ [Call.GetRecordAAAA d.id none] ++ [Call.DeleteAAAA d.id]⟩
        | none =>
          ⟨none, d, calls ++ [Call.GetRecordAAAA d.id none] ++ [Call.DeleteAAAA d.id]⟩ := by
  simp only [resourceInfobloxRecordDelete, h]
  cases client.GetRecordAAAA _ with
  | error e => rfl
  | ok r =>
    simp only [errOf, fmt.Errorf]
    cases client.Delete _ <;> rfl

/-- Normal form of `resourceInfobloxRecordDelete` in the `CNAME` arm. -/
theorem delete_Cname (upperTable : Char → Char) (client : Client) (d : ResourceData)
    (calls : List Call) (h : strings.ToUpper upperTable d.type = "CNAME") :
    resourceInfobloxRecordDelete upperTable client d calls =
      match client.GetRecordCname (calls ++ [Call.GetRecordCname d.id none]) with
      | .error e =>
        ⟨some ("Couldn't find Infoblox CNAME record: " ++ e), d,
          calls ++ [Call.GetRecordCname d.id none]⟩
      | .ok _ =>
        match client.Delete (calls ++ [Call.GetRecordCname d.id none] ++ [Call.DeleteCname d.id]) with
        | some _ =>
          ⟨some "Error deleting Infoblox CNAME Record: %!s(<nil>)", d,
            calls ++ [Call.GetRecordCname d.id none] ++ [Call.DeleteCname d.id]⟩
        | none =>
          ⟨none, d, calls ++ [Call.GetRecordCname d.id none] ++ [Call.DeleteCname d.id]⟩ := by
  simp only [resourceInfobloxRecordDelete, h]
  cases client.GetRecordCname _ with
  | error e => rfl
  | ok r =>
    simp only [errOf, fmt.Errorf]
    cases client.Delete _ <;> rfl

/-- Normal form of `resourceInfobloxRecordDelete` in the `HOST` arm. -/
theorem delete_Host (upperTable : Char → Char) (client : Client) (d : ResourceData)
    (calls : List Call) (h : strings.ToUpper upperTable d.type = "HOST") :
    resourceInfobloxRecordDelete upperTable client d calls =
      match client.GetRecordHost (calls ++ [Call.GetRecordHost d.id none]) with
      | .error e =>
        ⟨some ("Couldn't find Infoblox Host record: " ++ e), d,
          calls ++ [Call.GetRecordHost d.id none]⟩
      | .ok _ =>
        match client.Delete (calls ++ [Call.GetRecordHost d.id none] ++ [Call.DeleteHost d.id]) with
        | some _ =>
          ⟨some "Error deleting Infoblox Host Record: %!s(<nil>)", d,
            calls ++ [Call.GetRecordHost d.id none] ++ [Call.DeleteHost d.id]⟩
        | none =>
          ⟨none, d, calls ++ [Call.GetRecordHost d.id none] ++ [Call.DeleteHost d.id]⟩ := by
  simp only [resourceInfobloxRecordDelete, h]
  cases client.GetRecordHost _ with
  | error e => rfl
  | ok r =>
    simp only [errOf, fmt.Errorf]
    cases client.Delete _ <;> rfl

/-! ## The claims -/

/-- The element right after a list `l` in `l ++ [c] ++ more` is `c`. -/
theorem getElem?_length_append {α : Type} (l : List α) (c : α) (more : List α) :
    (l ++ [c] ++ more)[l.length]? = some c := by
  rw [List.append_assoc, List.getElem?_append_right (le_refl _)]
  simp

/-- The element right after `l` in `l ++ [c]` is `c`. -/
theorem getElem?_length_concat {α : Type} (l : List α) (c : α) :
    (l ++ [c])[l.length]? = some c := by
  simp

/-- Claim C1: when the upper-cased type is none of `A`, `AAAA`, `CNAME`, `HOST`,
each of Create, Read, Update and Delete returns its `unknown type` error, issues
no remote call (the list of calls is the one it started from) and leaves the
stored id unchanged. -/
theorem unknown_type_fails_without_remote_call (upperTable : Char → Char) (client : Client)
    (d : ResourceData) (calls : List Call)
    (h : strings.ToUpper upperTable d.type ∉ ["A", "AAAA", "CNAME", "HOST"]) :
    ((resourceInfobloxRecordCreate upperTable client d calls).err =
        some "resourceInfobloxRecordCreate: unknown type" ∧
      (resourceInfobloxRecordCreate upperTable client d calls).calls = calls ∧
      (resourceInfobloxRecordCreate upperTable client d calls).d.id = d.id) ∧
    ((resourceInfobloxRecordRead upperTable client d calls).err =
        some "resourceInfobloxRecordRead: unknown type" ∧
      (resourceInfobloxRecordRead upperTable client d calls).calls = calls ∧
      (resourceInfobloxRecordRead upperTable client d calls).d.id = d.id) ∧
    ((resourceInfobloxRecordUpdate upperTable client d calls).err =
        some "resourceInfobloxRecordUpdate: unknown type" ∧
      (resourceInfobloxRecordUpdate upperTable client d calls).calls = calls ∧
      (resourceInfobloxRecordUpdate upperTable client d calls).d.id = d.id) ∧
    ((resourceInfobloxRecordDelete upperTable client d calls).err =
        some "resourceInfobloxRecordDelete: unknown type" ∧
      (resourceInfobloxRecordDelete upperTable client d calls).calls = calls ∧
      (resourceInfobloxRecordDelete upperTable client d calls).d.id = d.id) := by
  simp only [List.mem_cons, List.mem_singleton, List.not_mem_nil, or_false, not_or] at h
  obtain ⟨h1, h2, h3, h4⟩ := h
  simp [resourceInfobloxRecordCreate, resourceInfobloxRecordRead, resourceInfobloxRecordUpdate,
    resourceInfobloxRecordDelete, h1, h2, h3, h4]

/-- Witness of claim C1: the type `mx` is unknown, and Delete issues no call. -/
theorem unknown_type_fails_without_remote_call_witness :
    strings.ToUpper id (sampleData "mx" "www" "example.com" "10.0.0.5" false "" "").type ∉
      ["A", "AAAA", "CNAME", "HOST"] ∧
    (resourceInfobloxRecordDelete id sampleStore
      (sampleData "mx" "www" "example.com" "10.0.0.5" false "" "") []).calls = [] :=
  ⟨by decide,
    (unknown_type_fails_without_remote_call id sampleStore
      (sampleData "mx" "www" "example.com" "10.0.0.5" false "" "") [] (by decide)).2.2.2.2.1⟩


/-- `lookupName` after a `A` lookup. -/
theorem lookupName_A (client : Client) (log : List Call) (ref : String)
    (opts : Option Options) :
    client.lookupName (log ++ [Call.GetRecordA ref opts]) =
      match client.GetRecordA (log ++ [Call.GetRecordA ref opts]) with
      | .ok rec => some rec.Name
      | .error _ => none := by
  simp [Client.lookupName]

/-- `lookupName` after a `AAAA` lookup. -/
theorem lookupName_AAAA (client : Client) (log : List Call) (ref : String)
    (opts : Option Options) :
    client.lookupName (log ++ [Call.GetRecordAAAA ref opts]) =
      match client.GetRecordAAAA (log ++ [Call.GetRecordAAAA ref opts]) with
      | .ok rec => some rec.Name
      | .error _ => none := by
  simp [Client.lookupName]

/-- `lookupName` after a `Cname` lookup. -/
theorem lookupName_Cname (client : Client) (log : List Call) (ref : String)
    (opts : Option Options) :
    client.lookupName (log ++ [Call.GetRecordCname ref opts]) =
      match client.GetRecordCname (log ++ [Call.GetRecordCname ref opts]) with
      | .ok rec => some rec.Name
      | .error _ => none := by
  simp [Client.lookupName]

/-- `lookupName` after a `Host` lookup. -/
theorem lookupName_Host (client : Client) (log : List Call) (ref : String)
    (opts : Option Options) :
    client.lookupName (log ++ [Call.GetRecordHost ref opts]) =
      match client.GetRecordHost (log ++ [Call.GetRecordHost ref opts]) with
      | .ok rec => some rec.Name
      | .error _ => none := by
  simp [Client.lookupName]

/-- Splitting the name Create sends gives back the name and the domain. -/
theorem split_sent_name (d : ResourceData) (hname : '.' ∉ d.name.data) (s : String)
    (hs : s = if d.domain = "" then d.name else d.name ++ "." ++ d.domain) :
    (strings.Split s '.').headD "" = d.name ∧
      strings.Join ((strings.Split s '.').drop 1) "." = d.domain := by
  subst hs
  by_cases hd : d.domain = ""
  · simp only [hd, if_true]
    exact split_join_bare_name _ hname
  · simp only [hd, if_false]
    exact split_join_name_domain _ _ hname

/-- The name round trip of Create, in the `A` arm. -/
theorem create_roundtrip_A (upperTable : Char → Char) (client : Client)
    (d : ResourceData) (calls : List Call)
    (hT : strings.ToUpper upperTable d.type = "A")
    (hname : '.' ∉ d.name.data) :
    (∃ c, (resourceInfobloxRecordCreate upperTable client d calls).calls[calls.length]? = some c ∧
      c.isCreate = true ∧
      c.Name = some (if d.domain = "" then d.name else d.name ++ "." ++ d.domain)) ∧
    ((resourceInfobloxRecordCreate upperTable client d calls).err = none →
      client.lookupName (resourceInfobloxRecordCreate upperTable client d calls).calls =
        some (if d.domain = "" then d.name else d.name ++ "." ++ d.domain) →
      (resourceInfobloxRecordCreate upperTable client d calls).d.fqdn =
          (if d.domain = "" then d.name else d.name ++ "." ++ d.domain) ∧
        (resourceInfobloxRecordCreate upperTable client d calls).d.name = d.name ∧
        (resourceInfobloxRecordCreate upperTable client d calls).d.domain = d.domain) := by
  rw [create_A _ _ _ _ hT _ rfl]
  cases client.Create _ with
  | error e =>
    dsimp only
    refine ⟨⟨_, getElem?_length_concat _ _, rfl, rfl⟩, ?_⟩
    intro he
    simp at he
  | ok recID =>
    have hT2 : strings.ToUpper upperTable (d.SetId recID).type = "A" := hT
    dsimp only
    rw [read_A _ _ _ _ hT2 _ rfl]
    cases hg : client.GetRecordA _ with
    | error e =>
      dsimp only
      refine ⟨⟨_, getElem?_length_append _ _ _, rfl, rfl⟩, ?_⟩
      intro he
      simp at he
    | ok rec =>
      dsimp only
      refine ⟨⟨_, getElem?_length_append _ _ _, rfl, rfl⟩, ?_⟩
      intro _ hl
      rw [lookupName_A, hg] at hl
      simp only [Option.some.injEq] at hl
      obtain ⟨h1, h2⟩ := split_sent_name d hname _ hl
      exact ⟨hl, h1, h2⟩

/-- The name round trip of Create, in the `AAAA` arm. -/
theorem create_roundtrip_AAAA (upperTable : Char → Char) (client : Client)
    (d : ResourceData) (calls : List Call)
    (hT : strings.ToUpper upperTable d.type = "AAAA")
    (hname : '.' ∉ d.name.data) :
    (∃ c, (resourceInfobloxRecordCreate upperTable client d calls).calls[calls.length]? = some c ∧
      c.isCreate = true ∧
      c.Name = some (if d.domain = "" then d.name else d.name ++ "." ++ d.domain)) ∧
    ((resourceInfobloxRecordCreate upperTable client d calls).err = none →
      client.lookupName (resourceInfobloxRecordCreate upperTable client d calls).calls =
        some (if d.domain = "" then d.name else d.name ++ "." ++ d.domain) →
      (resourceInfobloxRecordCreate upperTable client d calls).d.fqdn =
          (if d.domain = "" then d.name else d.name ++ "." ++ d.domain) ∧
        (resourceInfobloxRecordCreate upperTable client d calls).d.name = d.name ∧
        (resourceInfobloxRecordCreate upperTable client d calls).d.domain = d.domain) := by
  rw [create_AAAA _ _ _ _ hT _ rfl]
  cases client.Create _ with
  | error e =>
    dsimp only
    refine ⟨⟨_, getElem?_length_concat _ _, rfl, rfl⟩, ?_⟩
    intro he
    simp at he
  | ok recID =>
    have hT2 : strings.ToUpper upperTable (d.SetId recID).type = "AAAA" := hT
    dsimp only
    rw [read_AAAA _ _ _ _ hT2 _ rfl]
    cases hg : client.GetRecordAAAA _ with
    | error e =>
      dsimp only
      refine ⟨⟨_, getElem?_length_append _ _ _, rfl, rfl⟩, ?_⟩
      intro he
      simp at he
    | ok rec =>
      dsimp only
      refine ⟨⟨_, getElem?_length_append _ _ _, rfl, rfl⟩, ?_⟩
      intro _ hl
      rw [lookupName_AAAA, hg] at hl
      simp only [Option.some.injEq] at hl
      obtain ⟨h1, h2⟩ := split_sent_name d hname _ hl
      exact ⟨hl, h1, h2⟩

/-- The name round trip of Create, in the `Cname` arm. -/
theorem create_roundtrip_Cname (upperTable : Char → Char) (client : Client)
    (d : ResourceData) (calls : List Call)
    (hT : strings.ToUpper upperTable d.type = "CNAME")
    (hname : '.' ∉ d.name.data) :
    (∃ c, (resourceInfobloxRecordCreate upperTable client d calls).calls[calls.length]? = some c ∧
      c.isCreate = true ∧
      c.Name = some (if d.domain = "" then d.name else d.name ++ "." ++ d.domain)) ∧
    ((resourceInfobloxRecordCreate upperTable client d calls).err = none →
      client.lookupName (resourceInfobloxRecordCreate upperTable client d calls).calls =
        some (if d.domain = "" then d.name else d.name ++ "." ++ d.domain) →
      (resourceInfobloxRecordCreate upperTable client d calls).d.fqdn =
          (if d.domain = "" then d.name else d.name ++ "." ++ d.domain) ∧
        (resourceInfobloxRecordCreate upperTable client d calls).d.name = d.name ∧
        (resourceInfobloxRecordCreate upperTable client d calls).d.domain = d.domain) := by
  rw [create_Cname _ _ _ _ hT _ rfl]
  cases client.Create _ with
  | error e =>
    dsimp only
    refine ⟨⟨_, getElem?_length_concat _ _, rfl, rfl⟩, ?_⟩
    intro he
    simp at he
  | ok recID =>
    have hT2 : strings.ToUpper upperTable (d.SetId recID).type = "CNAME" := hT
    dsimp only
    rw [read_Cname _ _ _ _ hT2 _ rfl]
    cases hg : client.GetRecordCname _ with
    | error e =>
      dsimp only
      refine ⟨⟨_, getElem?_length_append _ _ _, rfl, rfl⟩, ?_⟩
      intro he
      simp at he
    | ok rec =>
      dsimp only
      refine ⟨⟨_, getElem?_length_append _ _ _, rfl, rfl⟩, ?_⟩
      intro _ hl
      rw [lookupName_Cname, hg] at hl
      simp only [Option.some.injEq] at hl
      obtain ⟨h1, h2⟩ := split_sent_name d hname _ hl
      exact ⟨hl, h1, h2⟩

/-- The name round trip of Create, in the `Host` arm. -/
theorem create_roundtrip_Host (upperTable : Char → Char) (client : Client)
    (d : ResourceData) (calls : List Call)
    (hT : strings.ToUpper upperTable d.type = "HOST")
    (hname : '.' ∉ d.name.data) :
    (∃ c, (resourceInfobloxRecordCreate upperTable client d calls).calls[calls.length]? = some c ∧
      c.isCreate = true ∧
      c.Name = some (if d.domain = "" then d.name else d.name ++ "." ++ d.domain)) ∧
    ((resourceInfobloxRecordCreate upperTable client d calls).err = none →
      client.lookupName (resourceInfobloxRecordCreate upperTable client d calls).calls =
        some (if d.domain = "" then d.name else d.name ++ "." ++ d.domain) →
      (resourceInfobloxRecordCreate upperTable client d calls).d.fqdn =
          (if d.domain = "" then d.name else d.name ++ "." ++ d.domain) ∧
        (resourceInfobloxRecordCreate upperTable client d calls).d.name = d.name ∧
        (resourceInfobloxRecordCreate upperTable client d calls).d.domain = d.domain) := by
  rw [create_Host _ _ _ _ hT _ rfl]
  cases client.Create _ with
  | error e =>
    dsimp only
    refine ⟨⟨_, getElem?_length_concat _ _, rfl, rfl⟩, ?_⟩
    intro he
    simp at he
  | ok recID =>
    have hT2 : strings.ToUpper upperTable (d.SetId recID).type = "HOST" := hT
    dsimp only
    rw [read_Host _ _ _ _ hT2 _ rfl]
    cases hg : client.GetRecordHost _ with
    | error e =>
      dsimp only
      refine ⟨⟨_, getElem?_length_append _ _ _, rfl, rfl⟩, ?_⟩
      intro he
      simp at he
    | ok rec =>
      dsimp only
      refine ⟨⟨_, getElem?_length_append _ _ _, rfl, rfl⟩, ?_⟩
      intro _ hl
      rw [lookupName_Host, hg] at hl
      simp only [Option.some.injEq] at hl
      obtain ⟨h1, h2⟩ := split_sent_name d hname _ hl
      exact ⟨hl, h1, h2⟩

/-- Claim C2, amended: for each of the four types and every name without a
`.`, the first call of Create is a remote create call whose record name is
`name + "." + domain` when the domain is non-empty and `name` alone when it is
empty; and when Create succeeds and the record read back carries that sent
name, the trailing Read has set `fqdn` to it, `name` to the original name and
`domain` to the original domain. -/
theorem create_then_read_splits_name (upperTable : Char → Char) (client : Client)
    (d : ResourceData) (calls : List Call)
    (hT : strings.ToUpper upperTable d.type ∈ ["A", "AAAA", "CNAME", "HOST"])
    (hname : '.' ∉ d.name.data) :
    (∃ c, (resourceInfobloxRecordCreate upperTable client d calls).calls[calls.length]? = some c ∧
      c.isCreate = true ∧
      c.Name = some (if d.domain = "" then d.name else d.name ++ "." ++ d.domain)) ∧
    ((resourceInfobloxRecordCreate upperTable client d calls).err = none →
      client.lookupName (resourceInfobloxRecordCreate upperTable client d calls).calls =
        some (if d.domain = "" then d.name else d.name ++ "." ++ d.domain) →
      (resourceInfobloxRecordCreate upperTable client d calls).d.fqdn =
          (if d.domain = "" then d.name else d.name ++ "." ++ d.domain) ∧
        (resourceInfobloxRecordCreate upperTable client d calls).d.name = d.name ∧
        (resourceInfobloxRecordCreate upperTable client d calls).d.domain = d.domain) := by
  simp only [List.mem_cons, List.mem_singleton, List.not_mem_nil, or_false] at hT
  rcases hT with h | h | h | h
  · exact create_roundtrip_A upperTable client d calls h hname
  · exact create_roundtrip_AAAA upperTable client d calls h hname
  · exact create_roundtrip_Cname upperTable client d calls h hname
  · exact create_roundtrip_Host upperTable client d calls h hname

/-- Witness of claim C2: `www` and `example.com`, type `a`, on the sample store. -/
theorem create_then_read_splits_name_witness :
    (resourceInfobloxRecordCreate id sampleStore
        (sampleData "a" "www" "example.com" "10.0.0.5" false "" "") []).d.fqdn =
        "www.example.com" ∧
      (resourceInfobloxRecordCreate id sampleStore
        (sampleData "a" "www" "example.com" "10.0.0.5" false "" "") []).d.name = "www" ∧
      (resourceInfobloxRecordCreate id sampleStore
        (sampleData "a" "www" "example.com" "10.0.0.5" false "" "") []).d.domain =
        "example.com" :=
  (create_then_read_splits_name id sampleStore
    (sampleData "a" "www" "example.com" "10.0.0.5" false "" "") [] (by decide) (by decide)).2
    (by decide) (by decide)

/-- Counterexample to claim C2 as stated: with the empty domain Create sends the
name `www`, which is not `www` followed by `.` and the domain. -/
theorem create_empty_domain_sends_bare_name :
    (resourceInfobloxRecordCreate id sampleStore
        (sampleData "A" "www" "" "10.0.0.5" false "" "") []).calls[0]? =
      some (Call.CreateA ⟨["name", "ipv4addr", "ttl", "view"]⟩
        ⟨"web", "10.0.0.5", "www", 300, "internal"⟩) ∧
    "www" ≠ "www" ++ "." ++ "" := by
  decide

/-- As `getElem?_length_append`, for a list known to start with `l ++ [c]`. -/
theorem getElem?_at_length {α : Type} (l : List α) (c : α) (l2 : List α)
    (h : ∃ more, l2 = l ++ [c] ++ more) : l2[l.length]? = some c := by
  obtain ⟨more, rfl⟩ := h
  exact getElem?_length_append l c more

/-- Read only appends to the list of calls. -/
theorem read_calls (upperTable : Char → Char) (client : Client) (d : ResourceData)
    (calls : List Call) :
    ∃ more, (resourceInfobloxRecordRead upperTable client d calls).calls = calls ++ more := by
  by_cases h1 : strings.ToUpper upperTable d.type = "A"
  · rw [read_A _ _ _ _ h1 _ rfl]
    cases client.GetRecordA _ <;> exact ⟨_, rfl⟩
  by_cases h2 : strings.ToUpper upperTable d.type = "AAAA"
  · rw [read_AAAA _ _ _ _ h2 _ rfl]
    cases client.GetRecordAAAA _ <;> exact ⟨_, rfl⟩
  by_cases h3 : strings.ToUpper upperTable d.type = "CNAME"
  · rw [read_Cname _ _ _ _ h3 _ rfl]
    cases client.GetRecordCname _ <;> exact ⟨_, rfl⟩
  by_cases h4 : strings.ToUpper upperTable d.type = "HOST"
  · rw [read_Host _ _ _ _ h4 _ rfl]
    cases client.GetRecordHost _ <;> exact ⟨_, rfl⟩
  exact ⟨[], by simp [resourceInfobloxRecordRead, h1, h2, h3, h4]⟩

/-- Claim C3: the first call of Create is the create call of the type; for `A`,
`AAAA` and `HOST` its address is `"func:nextavailableip:" ++ value` when
`nextavailableip` is true and `value` when it is false (for `HOST` as the only
entry of the address list), and for `CNAME` its canonical target is `value`
whatever the flag. -/
theorem create_sends_value_or_directive (upperTable : Char → Char) (client : Client)
    (d : ResourceData) (calls : List Call) :
    (strings.ToUpper upperTable d.type = "A" →
      ∃ opts body, (resourceInfobloxRecordCreate upperTable client d calls).calls[calls.length]? =
          some (Call.CreateA opts body) ∧
        body.Ipv4Addr = (if d.nextavailableip then "func:nextavailableip:" ++ d.value else d.value)) ∧
    (strings.ToUpper upperTable d.type = "AAAA" →
      ∃ opts body, (resourceInfobloxRecordCreate upperTable client d calls).calls[calls.length]? =
          some (Call.CreateAAAA opts body) ∧
        body.Ipv6Addr = (if d.nextavailableip then "func:nextavailableip:" ++ d.value else d.value)) ∧
    (strings.ToUpper upperTable d.type = "CNAME" →
      ∃ opts body, (resourceInfobloxRecordCreate upperTable client d calls).calls[calls.length]? =
          some (Call.CreateCname opts body) ∧
        body.Canonical = d.value) ∧
    (strings.ToUpper upperTable d.type = "HOST" →
      ∃ opts body, (resourceInfobloxRecordCreate upperTable client d calls).calls[calls.length]? =
          some (Call.CreateHost opts body) ∧
        body.Ipv4Addrs = [⟨(if d.nextavailableip then "func:nextavailableip:" ++ d.value else d.value)⟩]) := by
  refine ⟨?_, ?_, ?_, ?_⟩
  · intro h
    rw [create_A _ _ _ _ h _ rfl]
    cases client.Create _ with
    | error e => exact ⟨_, _, getElem?_length_concat _ _, rfl⟩
    | ok recID => exact ⟨_, _, getElem?_at_length _ _ _ (read_calls _ _ _ _), rfl⟩
  · intro h
    rw [create_AAAA _ _ _ _ h _ rfl]
    cases client.Create _ with
    | error e => exact ⟨_, _, getElem?_length_concat _ _, rfl⟩
    | ok recID => exact ⟨_, _, getElem?_at_length _ _ _ (read_calls _ _ _ _), rfl⟩
  · intro h
    rw [create_Cname _ _ _ _ h _ rfl]
    cases client.Create _ with
    | error e => exact ⟨_, _, getElem?_length_concat _ _, rfl⟩
    | ok recID => exact ⟨_, _, getElem?_at_length _ _ _ (read_calls _ _ _ _), rfl⟩
  · intro h
    rw [create_Host _ _ _ _ h _ rfl]
    cases client.Create _ with
    | error e => exact ⟨_, _, getElem?_length_concat _ _, rfl⟩
    | ok recID => exact ⟨_, _, getElem?_at_length _ _ _ (read_calls _ _ _ _), rfl⟩

/-- Witness of claim C3: a `HOST` record allocated from `10.0.0.0/24`. -/
theorem create_sends_value_or_directive_witness :
    ∃ opts body, (resourceInfobloxRecordCreate id sampleStore
        (sampleData "HOST" "www" "example.com" "10.0.0.0/24" true "" "") []).calls[0]? =
        some (Call.CreateHost opts body) ∧
      body.Ipv4Addrs = [⟨"func:nextavailableip:" ++ "10.0.0.0/24"⟩] :=
  (create_sends_value_or_directive id sampleStore
    (sampleData "HOST" "www" "example.com" "10.0.0.0/24" true "" "") []).2.2.2 (by decide)

/-- The second element after `l` in a list that starts with `l ++ [a] ++ [c]`. -/
theorem getElem?_succ_length {α : Type} (l : List α) (a c : α) (l2 : List α)
    (h : ∃ more, l2 = l ++ [a] ++ [c] ++ more) : l2[l.length + 1]? = some c := by
  obtain ⟨more, rfl⟩ := h
  have : (l ++ [a]).length = l.length + 1 := by simp
  rw [← this]
  exact getElem?_length_append (l ++ [a]) c more

/-- A value is never its own allocation directive. -/
theorem directive_ne_value (v : String) : v ≠ "func:nextavailableip:" ++ v := by
  intro h
  have h2 := congrArg String.length h
  rw [String.length_append] at h2
  have h3 : ("func:nextavailableip:" : String).length = 21 := by decide
  omega

/-- Claim C4, amended: for the types `A`, `AAAA` and `HOST`, a successful Read
on resource data with `nextavailableip = true` leaves `value` as it was; for
`CNAME` a Read whose lookup answers with a record succeeds and overwrites
`value` with the canonical target of that record, whatever the flag. -/
theorem read_keeps_value_when_allocating (upperTable : Char → Char) (client : Client)
    (d : ResourceData) (calls : List Call) :
    (strings.ToUpper upperTable d.type ∈ ["A", "AAAA", "HOST"] →
      d.nextavailableip = true →
      (resourceInfobloxRecordRead upperTable client d calls).err = none →
      (resourceInfobloxRecordRead upperTable client d calls).d.value = d.value) ∧
    (strings.ToUpper upperTable d.type = "CNAME" →
      ∀ rec, client.GetRecordCname
          (calls ++ [Call.GetRecordCname d.id (some ⟨["name", "canonical", "ttl", "view"]⟩)]) =
          .ok rec →
        (resourceInfobloxRecordRead upperTable client d calls).err = none ∧
        (resourceInfobloxRecordRead upperTable client d calls).d.value = rec.Canonical) := by
  constructor
  · intro hT hflag
    simp only [List.mem_cons, List.mem_singleton, List.not_mem_nil, or_false] at hT
    rcases hT with h | h | h
    · rw [read_A _ _ _ _ h _ rfl]
      cases client.GetRecordA _ with
      | error e => intro he; simp at he
      | ok rec => intro _; simp [hflag]
    · rw [read_AAAA _ _ _ _ h _ rfl]
      cases client.GetRecordAAAA _ with
      | error e => intro he; simp at he
      | ok rec => intro _; simp [hflag]
    · rw [read_Host _ _ _ _ h _ rfl]
      cases client.GetRecordHost _ with
      | error e => intro he; simp at he
      | ok rec =>
        intro _
        obtain ⟨cm, addrs, nm, tl, vw⟩ := rec
        cases addrs <;> simp [hflag]
  · intro h rec hrec
    rw [read_Cname _ _ _ _ h _ rfl, hrec]
    exact ⟨rfl, rfl⟩

/-- Witness of claim C4: a `host` record with `nextavailableip = true`. -/
theorem read_keeps_value_when_allocating_witness :
    (resourceInfobloxRecordRead id sampleStore
      (sampleData "host" "www" "example.com" "10.0.0.0/24" true "" "10.0.0.0/24") []).d.value =
      "10.0.0.0/24" :=
  (read_keeps_value_when_allocating id sampleStore
    (sampleData "host" "www" "example.com" "10.0.0.0/24" true "" "10.0.0.0/24") []).1
    (by decide) rfl (by decide)

/-- Counterexample to claim C4 as stated: a successful Read of a `CNAME` record
with `nextavailableip = true` replaces the value `old.example.com` by the
canonical target of the store. -/
theorem read_cname_overwrites_value :
    (sampleData "CNAME" "www" "example.com" "old.example.com" true "" "old.example.com").value =
      "old.example.com" ∧
    (resourceInfobloxRecordRead id sampleStore
      (sampleData "CNAME" "www" "example.com" "old.example.com" true "" "old.example.com")
      []).err = none ∧
    (resourceInfobloxRecordRead id sampleStore
      (sampleData "CNAME" "www" "example.com" "old.example.com" true "" "old.example.com")
      []).d.value = "target.example.com" := by
  decide

/-- After a successful lookup the second call of `resourceInfobloxRecordUpdate`
is the remote update call, in the `A` arm. -/
theorem update_payload_A (upperTable : Char → Char) (client : Client)
    (d : ResourceData) (calls : List Call)
    (h : strings.ToUpper upperTable d.type = "A") (r : RecordAObject)
    (hr : client.GetRecordA (calls ++ [Call.GetRecordA d.id none]) = .ok r) :
    (resourceInfobloxRecordUpdate upperTable client d calls).calls[calls.length + 1]? =
      some (Call.UpdateA d.id ⟨["name", "ipv4addr", "ttl", "view"]⟩
        ⟨d.comment, (if d.nextavailableip then
          if d.HasChangeValue then "func:nextavailableip:" ++ d.value
          else if d.ipv4addr = "" then d.value else d.ipv4addr
        else d.value), (if d.domain = "" then d.name else d.name ++ "." ++ d.domain), d.ttl, ""⟩) := by
  rw [update_A _ _ _ _ h _ _ rfl rfl, hr]
  dsimp only
  cases client.Update _ with
  | error e => exact getElem?_succ_length _ _ _ _ ⟨[], (List.append_nil _).symm⟩
  | ok recID =>
    obtain ⟨more, hm⟩ := read_calls upperTable client (d.SetId recID)
      (calls ++ [Call.GetRecordA d.id none] ++ [Call.UpdateA d.id ⟨["name", "ipv4addr", "ttl", "view"]⟩
        ⟨d.comment, (if d.nextavailableip then
          if d.HasChangeValue then "func:nextavailableip:" ++ d.value
          else if d.ipv4addr = "" then d.value else d.ipv4addr
        else d.value), (if d.domain = "" then d.name else d.name ++ "." ++ d.domain), d.ttl, ""⟩])
    exact getElem?_succ_length _ _ _ _ ⟨more, hm⟩

/-- After a successful lookup the second call of `resourceInfobloxRecordUpdate`
is the remote update call, in the `AAAA` arm. -/
theorem update_payload_AAAA (upperTable : Char → Char) (client : Client)
    (d : ResourceData) (calls : List Call)
    (h : strings.ToUpper upperTable d.type = "AAAA") (r : RecordAAAAObject)
    (hr : client.GetRecordAAAA (calls ++ [Call.GetRecordAAAA d.id none]) = .ok r) :
    (resourceInfobloxRecordUpdate upperTable client d calls).calls[calls.length + 1]? =
      some (Call.UpdateAAAA d.id ⟨["name", "ipv6addr", "ttl", "view"]⟩
        ⟨d.comment, (if d.nextavailableip then
          if d.HasChangeValue then "func:nextavailableip:" ++ d.value
          else if d.ipv6addr = "" then d.value else d.ipv6addr
        else d.value), (if d.domain = "" then d.name else d.name ++ "." ++ d.domain), d.ttl, ""⟩) := by
  rw [update_AAAA _ _ _ _ h _ _ rfl rfl, hr]
  dsimp only
  cases client.Update _ with
  | error e => exact getElem?_succ_length _ _ _ _ ⟨[], (List.append_nil _).symm⟩
  | ok recID =>
    obtain ⟨more, hm⟩ := read_calls upperTable client (d.SetId recID)
      (calls ++ [Call.GetRecordAAAA d.id none] ++ [Call.UpdateAAAA d.id ⟨["name", "ipv6addr", "ttl", "view"]⟩
        ⟨d.comment, (if d.nextavailableip then
          if d.HasChangeValue then "func:nextavailableip:" ++ d.value
          else if d.ipv6addr = "" then d.value else d.ipv6addr
        else d.value), (if d.domain = "" then d.name else d.name ++ "." ++ d.domain), d.ttl, ""⟩])
    exact getElem?_succ_length _ _ _ _ ⟨more, hm⟩

/-- After a successful lookup the second call of `resourceInfobloxRecordUpdate`
is the remote update call, in the `CNAME` arm. -/
theorem update_payload_Cname (upperTable : Char → Char) (client : Client)
    (d : ResourceData) (calls : List Call)
    (h : strings.ToUpper upperTable d.type = "CNAME") (r : RecordCnameObject)
    (hr : client.GetRecordCname (calls ++ [Call.GetRecordCname d.id none]) = .ok r) :
    (resourceInfobloxRecordUpdate upperTable client d calls).calls[calls.length + 1]? =
      some (Call.UpdateCname d.id ⟨["name", "canonical", "ttl", "view"]⟩
        ⟨d.value, d.comment, (if d.domain = "" then d.name else d.name ++ "." ++ d.domain), d.ttl, ""⟩) := by
  rw [update_Cname _ _ _ _ h _ _ rfl rfl, hr]
  dsimp only
  cases client.Update _ with
  | error e => exact getElem?_succ_length _ _ _ _ ⟨[], (List.append_nil _).symm⟩
  | ok recID =>
    obtain ⟨more, hm⟩ := read_calls upperTable client (d.SetId recID)
      (calls ++ [Call.GetRecordCname d.id none] ++ [Call.UpdateCname d.id ⟨["name", "canonical", "ttl", "view"]⟩
        ⟨d.value, d.comment, (if d.domain = "" then d.name else d.name ++ "." ++ d.domain), d.ttl, ""⟩])
    exact getElem?_succ_length _ _ _ _ ⟨more, hm⟩

/-- After a successful lookup the second call of `resourceInfobloxRecordUpdate`
is the remote update call, in the `HOST` arm. -/
theorem update_payload_Host (upperTable : Char → Char) (client : Client)
    (d : ResourceData) (calls : List Call)
    (h : strings.ToUpper upperTable d.type = "HOST") (r : RecordHostObject)
    (hr : client.GetRecordHost (calls ++ [Call.GetRecordHost d.id none]) = .ok r) :
    (resourceInfobloxRecordUpdate upperTable client d calls).calls[calls.length + 1]? =
      some (Call.UpdateHost d.id ⟨["name", "ipv4addrs", "ttl", "view"]⟩
        ⟨d.comment, [⟨(if d.nextavailableip then
          if d.HasChangeValue then "func:nextavailableip:" ++ d.value
          else if d.ipv4addr = "" then d.value else d.ipv4addr
        else d.value)⟩], (if d.domain = "" then d.name else d.name ++ "." ++ d.domain), d.ttl, ""⟩) := by
  rw [update_Host _ _ _ _ h _ _ rfl rfl, hr]
  dsimp only
  cases client.Update _ with
  | error e => exact getElem?_succ_length _ _ _ _ ⟨[], (List.append_nil _).symm⟩
  | ok recID =>
    obtain ⟨more, hm⟩ := read_calls upperTable client (d.SetId recID)
      (calls ++ [Call.GetRecordHost d.id none] ++ [Call.UpdateHost d.id ⟨["name", "ipv4addrs", "ttl", "view"]⟩
        ⟨d.comment, [⟨(if d.nextavailableip then
          if d.HasChangeValue then "func:nextavailableip:" ++ d.value
          else if d.ipv4addr = "" then d.value else d.ipv4addr
        else d.value)⟩], (if d.domain = "" then d.name else d.name ++ "." ++ d.domain), d.ttl, ""⟩])
    exact getElem?_succ_length _ _ _ _ ⟨more, hm⟩

/-- Claim C5, amended: for the types `A`, `AAAA` and `HOST`, when the lookup
succeeds, `nextavailableip` is true and `value` has not changed, the address of
the update payload is the last resolved address (`ipv4addr` for `A` and `HOST`,
`ipv6addr` for `AAAA`) when that is non-empty and `value` itself when it is
empty; it is the directive `"func:nextavailableip:" ++ value` only if the
stored resolved address is that very text. -/
theorem update_unchanged_value_reuses_address (upperTable : Char → Char) (client : Client)
    (d : ResourceData) (calls : List Call) :
    (strings.ToUpper upperTable d.type = "A" →
      d.nextavailableip = true → d.HasChangeValue = false →
      ∀ r, client.GetRecordA (calls ++ [Call.GetRecordA d.id none]) = .ok r →
      ∃ opts body, (resourceInfobloxRecordUpdate upperTable client d calls).calls[calls.length + 1]? =
          some (Call.UpdateA d.id opts body) ∧
        body.Ipv4Addr = (if d.ipv4addr = "" then d.value else d.ipv4addr) ∧
        (d.ipv4addr ≠ "func:nextavailableip:" ++ d.value →
          body.Ipv4Addr ≠ ("func:nextavailableip:" ++ d.value))) ∧
    (strings.ToUpper upperTable d.type = "AAAA" →
      d.nextavailableip = true → d.HasChangeValue = false →
      ∀ r, client.GetRecordAAAA (calls ++ [Call.GetRecordAAAA d.id none]) = .ok r →
      ∃ opts body, (resourceInfobloxRecordUpdate upperTable client d calls).calls[calls.length + 1]? =
          some (Call.UpdateAAAA d.id opts body) ∧
        body.Ipv6Addr = (if d.ipv6addr = "" then d.value else d.ipv6addr) ∧
        (d.ipv6addr ≠ "func:nextavailableip:" ++ d.value →
          body.Ipv6Addr ≠ ("func:nextavailableip:" ++ d.value))) ∧
    (strings.ToUpper upperTable d.type = "HOST" →
      d.nextavailableip = true → d.HasChangeValue = false →
      ∀ r, client.GetRecordHost (calls ++ [Call.GetRecordHost d.id none]) = .ok r →
      ∃ opts body, (resourceInfobloxRecordUpdate upperTable client d calls).calls[calls.length + 1]? =
          some (Call.UpdateHost d.id opts body) ∧
        body.Ipv4Addrs = [⟨(if d.ipv4addr = "" then d.value else d.ipv4addr)⟩] ∧
        (d.ipv4addr ≠ "func:nextavailableip:" ++ d.value →
          body.Ipv4Addrs ≠ [⟨("func:nextavailableip:" ++ d.value)⟩])) := by
  refine ⟨?_, ?_, ?_⟩
  · intro h hflag hsame r hr
    refine ⟨_, _, update_payload_A upperTable client d calls h r hr, ?_, ?_⟩
    · simp [hflag, hsame]
    · intro hne
      by_cases he : d.ipv4addr = ""
      · simpa [hflag, hsame, he] using directive_ne_value d.value
      · simpa [hflag, hsame, he] using hne
  · intro h hflag hsame r hr
    refine ⟨_, _, update_payload_AAAA upperTable client d calls h r hr, ?_, ?_⟩
    · simp [hflag, hsame]
    · intro hne
      by_cases he : d.ipv6addr = ""
      · simpa [hflag, hsame, he] using directive_ne_value d.value
      · simpa [hflag, hsame, he] using hne
  · intro h hflag hsame r hr
    refine ⟨_, _, update_payload_Host upperTable client d calls h r hr, ?_, ?_⟩
    · simp [hflag, hsame]
    · intro hne
      by_cases he : d.ipv4addr = ""
      · simpa [hflag, hsame, he] using directive_ne_value d.value
      · simpa [hflag, hsame, he] using hne

/-- Witness of claim C5: an `A` record resolved to `10.0.0.7`. -/
theorem update_unchanged_value_reuses_address_witness :
    ∃ opts body, (resourceInfobloxRecordUpdate id sampleStore
        (sampleData "A" "www" "example.com" "10.0.0.0/24" true "10.0.0.7" "10.0.0.0/24")
        []).calls[1]? = some (Call.UpdateA "record:ref0" opts body) ∧
      body.Ipv4Addr = "10.0.0.7" ∧
      ("10.0.0.7" ≠ "func:nextavailableip:" ++ "10.0.0.0/24" →
        body.Ipv4Addr ≠ "func:nextavailableip:" ++ "10.0.0.0/24") :=
  (update_unchanged_value_reuses_address id sampleStore
    (sampleData "A" "www" "example.com" "10.0.0.0/24" true "10.0.0.7" "10.0.0.0/24") []).1
    (by decide) rfl (by decide) _ rfl

/-- Counterexample to claim C5 as stated: a Read of a host record without
address entries succeeds and leaves `ipv4addr` empty and `value` unchanged; the
Update that follows carries the value `10.0.0.0/24` in its payload, not the
(empty) resolved address.  And with a resolved address that is the directive
text, the payload is that directive. -/
theorem update_unresolved_address_sends_value :
    ((resourceInfobloxRecordRead id addresslessStore
        (sampleData "HOST" "www" "example.com" "10.0.0.0/24" true "" "10.0.0.0/24") []).err =
        none ∧
      (resourceInfobloxRecordRead id addresslessStore
        (sampleData "HOST" "www" "example.com" "10.0.0.0/24" true "" "10.0.0.0/24")
        []).d.ipv4addr = "" ∧
      (resourceInfobloxRecordRead id addresslessStore
        (sampleData "HOST" "www" "example.com" "10.0.0.0/24" true "" "10.0.0.0/24")
        []).d.HasChangeValue = false ∧
      (resourceInfobloxRecordUpdate id addresslessStore
        (resourceInfobloxRecordRead id addresslessStore
          (sampleData "HOST" "www" "example.com" "10.0.0.0/24" true "" "10.0.0.0/24") []).d
        []).calls[1]? =
        some (Call.UpdateHost "record:ref0" ⟨["name", "ipv4addrs", "ttl", "view"]⟩
          ⟨"web", [⟨"10.0.0.0/24"⟩], "www.example.com", 0, ""⟩)) ∧
    (resourceInfobloxRecordUpdate id sampleStore
        (sampleData "A" "www" "example.com" "10.0.0.0/24" true
          "func:nextavailableip:10.0.0.0/24" "10.0.0.0/24") []).calls[1]? =
      some (Call.UpdateA "record:ref0" ⟨["name", "ipv4addr", "ttl", "view"]⟩
        ⟨"web", "func:nextavailableip:" ++ "10.0.0.0/24", "www.example.com", 300, ""⟩) := by
  decide

/-- Claim C6, amended: when the lookup succeeds, `nextavailableip` is true and
`value` has changed, the update payload carries
`"func:nextavailableip:" ++ value` as its address for the types `A`, `AAAA` and
`HOST` (for `HOST` as the only entry of the address list), and `value`
unchanged as its canonical target for `CNAME`. -/
theorem update_changed_value_sends_directive (upperTable : Char → Char) (client : Client)
    (d : ResourceData) (calls : List Call) :
    (strings.ToUpper upperTable d.type = "A" →
      d.nextavailableip = true → d.HasChangeValue = true →
      ∀ r, client.GetRecordA (calls ++ [Call.GetRecordA d.id none]) = .ok r →
      ∃ opts body, (resourceInfobloxRecordUpdate upperTable client d calls).calls[calls.length + 1]? =
          some (Call.UpdateA d.id opts body) ∧
        body.Ipv4Addr = ("func:nextavailableip:" ++ d.value)) ∧
    (strings.ToUpper upperTable d.type = "AAAA" →
      d.nextavailableip = true → d.HasChangeValue = true →
      ∀ r, client.GetRecordAAAA (calls ++ [Call.GetRecordAAAA d.id none]) = .ok r →
      ∃ opts body, (resourceInfobloxRecordUpdate upperTable client d calls).calls[calls.length + 1]? =
          some (Call.UpdateAAAA d.id opts body) ∧
        body.Ipv6Addr = ("func:nextavailableip:" ++ d.value)) ∧
    (strings.ToUpper upperTable d.type = "CNAME" →
      d.nextavailableip = true → d.HasChangeValue = true →
      ∀ r, client.GetRecordCname (calls ++ [Call.GetRecordCname d.id none]) = .ok r →
      ∃ opts body, (resourceInfobloxRecordUpdate upperTable client d calls).calls[calls.length + 1]? =
          some (Call.UpdateCname d.id opts body) ∧
        body.Canonical = d.value) ∧
    (strings.ToUpper upperTable d.type = "HOST" →
      d.nextavailableip = true → d.HasChangeValue = true →
      ∀ r, client.GetRecordHost (calls ++ [Call.GetRecordHost d.id none]) = .ok r →
      ∃ opts body, (resourceInfobloxRecordUpdate upperTable client d calls).calls[calls.length + 1]? =
          some (Call.UpdateHost d.id opts body) ∧
        body.Ipv4Addrs = [⟨("func:nextavailableip:" ++ d.value)⟩]) := by
  refine ⟨?_, ?_, ?_, ?_⟩
  · intro h hflag hchg r hr
    refine ⟨_, _, update_payload_A upperTable client d calls h r hr, ?_⟩
    simp [hflag, hchg]
  · intro h hflag hchg r hr
    refine ⟨_, _, update_payload_AAAA upperTable client d calls h r hr, ?_⟩
    simp [hflag, hchg]
  · intro h hflag hchg r hr
    exact ⟨_, _, update_payload_Cname upperTable client d calls h r hr, rfl⟩
  · intro h hflag hchg r hr
    refine ⟨_, _, update_payload_Host upperTable client d calls h r hr, ?_⟩
    simp [hflag, hchg]

/-- Witness of claim C6: a `host` record whose value changed to `10.0.1.0/24`. -/
theorem update_changed_value_sends_directive_witness :
    ∃ opts body, (resourceInfobloxRecordUpdate id sampleStore
        (sampleData "host" "www" "example.com" "10.0.1.0/24" true "10.0.0.7" "10.0.0.0/24")
        []).calls[1]? = some (Call.UpdateHost "record:ref0" opts body) ∧
      body.Ipv4Addrs = [⟨"func:nextavailableip:" ++ "10.0.1.0/24"⟩] :=
  (update_changed_value_sends_directive id sampleStore
    (sampleData "host" "www" "example.com" "10.0.1.0/24" true "10.0.0.7" "10.0.0.0/24")
    []).2.2.2 (by decide) rfl (by decide) _ rfl

/-- Counterexample to claim C6 as stated: for a `CNAME` record with
`nextavailableip = true` and a changed value, the payload carries the value
unchanged, not the directive. -/
theorem update_cname_sends_no_directive :
    (sampleData "CNAME" "www" "example.com" "new.example.com" true ""
        "old.example.com").HasChangeValue = true ∧
    (resourceInfobloxRecordUpdate id sampleStore
        (sampleData "CNAME" "www" "example.com" "new.example.com" true "" "old.example.com")
        []).calls[1]? =
      some (Call.UpdateCname "record:ref0" ⟨["name", "canonical", "ttl", "view"]⟩
        ⟨"new.example.com", "web", "www.example.com", 300, ""⟩) := by
  decide

/-- Claim C7, amended: for every type and all resource data (whatever the
view) with `nextavailableip = false` whose lookup succeeds, the second call of
Update is the update call of the type with an empty `View`, the current
comment and ttl, `value` as address or canonical target (for `HOST` as the only
entry of the address list), and the name `name + "." + domain` when the domain
is non-empty and `name` alone when it is empty. -/
theorem update_payload_without_view (upperTable : Char → Char) (client : Client)
    (d : ResourceData) (calls : List Call) :
    (strings.ToUpper upperTable d.type = "A" →
      d.nextavailableip = false →
      ∀ r, client.GetRecordA (calls ++ [Call.GetRecordA d.id none]) = .ok r →
      (resourceInfobloxRecordUpdate upperTable client d calls).calls[calls.length + 1]? =
        some (Call.UpdateA d.id ⟨["name", "ipv4addr", "ttl", "view"]⟩
          ⟨d.comment, d.value, (if d.domain = "" then d.name else d.name ++ "." ++ d.domain), d.ttl, ""⟩)) ∧
    (strings.ToUpper upperTable d.type = "AAAA" →
      d.nextavailableip = false →
      ∀ r, client.GetRecordAAAA (calls ++ [Call.GetRecordAAAA d.id none]) = .ok r →
      (resourceInfobloxRecordUpdate upperTable client d calls).calls[calls.length + 1]? =
        some (Call.UpdateAAAA d.id ⟨["name", "ipv6addr", "ttl", "view"]⟩
          ⟨d.comment, d.value, (if d.domain = "" then d.name else d.name ++ "." ++ d.domain), d.ttl, ""⟩)) ∧
    (strings.ToUpper upperTable d.type = "CNAME" →
      d.nextavailableip = false →
      ∀ r, client.GetRecordCname (calls ++ [Call.GetRecordCname d.id none]) = .ok r →
      (resourceInfobloxRecordUpdate upperTable client d calls).calls[calls.length + 1]? =
        some (Call.UpdateCname d.id ⟨["name", "canonical", "ttl", "view"]⟩
          ⟨d.value, d.comment, (if d.domain = "" then d.name else d.name ++ "." ++ d.domain), d.ttl, ""⟩)) ∧
    (strings.ToUpper upperTable d.type = "HOST" →
      d.nextavailableip = false →
      ∀ r, client.GetRecordHost (calls ++ [Call.GetRecordHost d.id none]) = .ok r →
      (resourceInfobloxRecordUpdate upperTable client d calls).calls[calls.length + 1]? =
        some (Call.UpdateHost d.id ⟨["name", "ipv4addrs", "ttl", "view"]⟩
          ⟨d.comment, [⟨d.value⟩], (if d.domain = "" then d.name else d.name ++ "." ++ d.domain), d.ttl, ""⟩)) := by
  refine ⟨?_, ?_, ?_, ?_⟩
  · intro h hflag r hr
    rw [update_payload_A upperTable client d calls h r hr]
    simp [hflag]
  · intro h hflag r hr
    rw [update_payload_AAAA upperTable client d calls h r hr]
    simp [hflag]
  · intro h hflag r hr
    exact update_payload_Cname upperTable client d calls h r hr
  · intro h hflag r hr
    rw [update_payload_Host upperTable client d calls h r hr]
    simp [hflag]

/-- Witness of claim C7: an `a` record with view `internal`. -/
theorem update_payload_without_view_witness :
    (resourceInfobloxRecordUpdate id sampleStore
        (sampleData "a" "www" "example.com" "10.0.0.5" false "10.0.0.5" "10.0.0.5")
        []).calls[1]? =
      some (Call.UpdateA "record:ref0" ⟨["name", "ipv4addr", "ttl", "view"]⟩
        ⟨"web", "10.0.0.5", "www.example.com", 300, ""⟩) :=
  (update_payload_without_view id sampleStore
    (sampleData "a" "www" "example.com" "10.0.0.5" false "10.0.0.5" "10.0.0.5") []).1
    (by decide) rfl _ rfl

/-- Counterexample to claim C7 as stated: with the empty domain the payload name
is `www`, which is not `www` followed by `.` and the domain. -/
theorem update_empty_domain_sends_bare_name :
    (resourceInfobloxRecordUpdate id sampleStore
        (sampleData "A" "www" "" "10.0.0.5" false "10.0.0.5" "10.0.0.5") []).calls[1]? =
      some (Call.UpdateA "record:ref0" ⟨["name", "ipv4addr", "ttl", "view"]⟩
        ⟨"web", "10.0.0.5", "www", 300, ""⟩) ∧
    "www" ≠ "www" ++ "." ++ "" := by
  decide

/-- Claim C8, the code at the failing input: on a store that refuses every
change with the error `boom`, Create returns its fixed text followed by `boom`,
while Update and Delete return their fixed text followed by `%!s(<nil>)`, the
print of the nil lookup error, and not by `boom`. -/
theorem update_and_delete_drop_error_text :
    (resourceInfobloxRecordCreate id refusingStore
        (sampleData "A" "www" "example.com" "10.0.0.5" false "" "") []).err =
      some "Failed to create Infblox Record: boom" ∧
    (resourceInfobloxRecordUpdate id refusingStore
        (sampleData "A" "www" "example.com" "10.0.0.5" false "10.0.0.5" "10.0.0.5") []).err =
      some "Failed to update Infblox Record: %!s(<nil>)" ∧
    (resourceInfobloxRecordDelete id refusingStore
        (sampleData "A" "www" "example.com" "10.0.0.5" false "10.0.0.5" "10.0.0.5") []).err =
      some "Error deleting Infoblox A Record: %!s(<nil>)" := by
  decide

/-- Claim C9: for each of the four types, if the lookup by id fails with `e`,
Delete returns `Couldn't find Infoblox ... record: e` and the lookup is the
only call it issues (no remote delete); and if Delete returns no error, the
lookup was answered with a record, the remote delete call returned no error and
the calls issued are the lookup followed by the delete. -/
theorem delete_requires_found_record (upperTable : Char → Char) (client : Client)
    (d : ResourceData) (calls : List Call) :
    (strings.ToUpper upperTable d.type = "A" →
      (∀ e, client.GetRecordA (calls ++ [Call.GetRecordA d.id none]) = .error e →
        (resourceInfobloxRecordDelete upperTable client d calls).err =
          some ("Couldn't find Infoblox A record: " ++ e) ∧
        (resourceInfobloxRecordDelete upperTable client d calls).calls =
          calls ++ [Call.GetRecordA d.id none]) ∧
      ((resourceInfobloxRecordDelete upperTable client d calls).err = none →
        (∃ r, client.GetRecordA (calls ++ [Call.GetRecordA d.id none]) = .ok r) ∧
        client.Delete (calls ++ [Call.GetRecordA d.id none] ++ [Call.DeleteA d.id]) = none ∧
        (resourceInfobloxRecordDelete upperTable client d calls).calls =
          calls ++ [Call.GetRecordA d.id none] ++ [Call.DeleteA d.id])) ∧
    (strings.ToUpper upperTable d.type = "AAAA" →
      (∀ e, client.GetRecordAAAA (calls ++ [Call.GetRecordAAAA d.id none]) = .error e →
        (resourceInfobloxRecordDelete upperTable client d calls).err =
          some ("Couldn't find Infoblox AAAA record: " ++ e) ∧
        (resourceInfobloxRecordDelete upperTable client d calls).calls =
          calls ++ [Call.GetRecordAAAA d.id none]) ∧
      ((resourceInfobloxRecordDelete upperTable client d calls).err = none →
        (∃ r, client.GetRecordAAAA (calls ++ [Call.GetRecordAAAA d.id none]) = .ok r) ∧
        client.Delete (calls ++ [Call.GetRecordAAAA d.id none] ++ [Call.DeleteAAAA d.id]) = none ∧
        (resourceInfobloxRecordDelete upperTable client d calls).calls =
          calls ++ [Call.GetRecordAAAA d.id none] ++ [Call.DeleteAAAA d.id])) ∧
    (strings.ToUpper upperTable d.type = "CNAME" →
      (∀ e, client.GetRecordCname (calls ++ [Call.GetRecordCname d.id none]) = .error e →
        (resourceInfobloxRecordDelete upperTable client d calls).err =
          some ("Couldn't find Infoblox CNAME record: " ++ e) ∧
        (resourceInfobloxRecordDelete upperTable client d calls).calls =
          calls ++ [Call.GetRecordCname d.id none]) ∧
      ((resourceInfobloxRecordDelete upperTable client d calls).err = none →
        (∃ r, client.GetRecordCname (calls ++ [Call.GetRecordCname d.id none]) = .ok r) ∧
        client.Delete (calls ++ [Call.GetRecordCname d.id none] ++ [Call.DeleteCname d.id]) = none ∧
        (resourceInfobloxRecordDelete upperTable client d calls).calls =
          calls ++ [Call.GetRecordCname d.id none] ++ [Call.DeleteCname d.id])) ∧
    (strings.ToUpper upperTable d.type = "HOST" →
      (∀ e, client.GetRecordHost (calls ++ [Call.GetRecordHost d.id none]) = .error e →
        (resourceInfobloxRecordDelete upperTable client d calls).err =
          some ("Couldn't find Infoblox Host record: " ++ e) ∧
        (resourceInfobloxRecordDelete upperTable client d calls).calls =
          calls ++ [Call.GetRecordHost d.id none]) ∧
      ((resourceInfobloxRecordDelete upperTable client d calls).err = none →
        (∃ r, client.GetRecordHost (calls ++ [Call.GetRecordHost d.id none]) = .ok r) ∧
        client.Delete (calls ++ [Call.GetRecordHost d.id none] ++ [Call.DeleteHost d.id]) = none ∧
        (resourceInfobloxRecordDelete upperTable client d calls).calls =
          calls ++ [Call.GetRecordHost d.id none] ++ [Call.DeleteHost d.id])) := by
  refine ⟨?_, ?_, ?_, ?_⟩
  · intro h
    rw [delete_A _ _ _ _ h]
    constructor
    · intro e he
      rw [he]
      exact ⟨rfl, rfl⟩
    · cases hg : client.GetRecordA _ with
      | error e => intro he; simp at he
      | ok r =>
        dsimp only
        cases hdel : client.Delete _ with
        | some e => intro he; simp at he
        | none => intro _; exact ⟨⟨r, rfl⟩, rfl, rfl⟩
  · intro h
    rw [delete_AAAA _ _ _ _ h]
    constructor
    · intro e he
      rw [he]
      exact ⟨rfl, rfl⟩
    · cases hg : client.GetRecordAAAA _ with
      | error e => intro he; simp at he
      | ok r =>
        dsimp only
        cases hdel : client.Delete _ with
        | some e => intro he; simp at he
        | none => intro _; exact ⟨⟨r, rfl⟩, rfl, rfl⟩
  · intro h
    rw [delete_Cname _ _ _ _ h]
    constructor
    · intro e he
      rw [he]
      exact ⟨rfl, rfl⟩
    · cases hg : client.GetRecordCname _ with
      | error e => intro he; simp at he
      | ok r =>
        dsimp only
        cases hdel : client.Delete _ with
        | some e => intro he; simp at he
        | none => intro _; exact ⟨⟨r, rfl⟩, rfl, rfl⟩
  · intro h
    rw [delete_Host _ _ _ _ h]
    constructor
    · intro e he
      rw [he]
      exact ⟨rfl, rfl⟩
    · cases hg : client.GetRecordHost _ with
      | error e => intro he; simp at he
      | ok r =>
        dsimp only
        cases hdel : client.Delete _ with
        | some e => intro he; simp at he
        | none => intro _; exact ⟨⟨r, rfl⟩, rfl, rfl⟩

/-- Witness of claim C9: a `cname` record on the store where nothing is found. -/
theorem delete_requires_found_record_witness :
    (resourceInfobloxRecordDelete id emptyStore
        (sampleData "cname" "www" "example.com" "target.example.com" false "" "") []).err =
      some ("Couldn't find Infoblox CNAME record: " ++ "gone") ∧
    (resourceInfobloxRecordDelete id emptyStore
        (sampleData "cname" "www" "example.com" "target.example.com" false "" "") []).calls =
      [] ++ [Call.GetRecordCname "record:ref0" none] :=
  ((delete_requires_found_record id emptyStore
    (sampleData "cname" "www" "example.com" "target.example.com" false "" "") []).2.2.1
    (by decide)).1 "gone" rfl

/-- Claim C10, the code at the failing input: a successful Read of resource
data of type `HOST` stores the type `Host`, while a Read of type `A` stores
`A`. -/
theorem read_host_rewrites_type :
    (sampleData "HOST" "www" "example.com" "10.0.0.5" false "" "").type = "HOST" ∧
    (resourceInfobloxRecordRead id sampleStore
        (sampleData "HOST" "www" "example.com" "10.0.0.5" false "" "") []).err = none ∧
    (resourceInfobloxRecordRead id sampleStore
        (sampleData "HOST" "www" "example.com" "10.0.0.5" false "" "") []).d.type = "Host" ∧
    (resourceInfobloxRecordRead id sampleStore
        (sampleData "A" "www" "example.com" "10.0.0.5" false "" "") []).d.type = "A" := by
  decide

end Infoblox
